import Mathlib

/-!
# Patch generation of the APM mutating webhook (`patch.go`)

A shallow embedding of `patch.go` together with a model of the JSON-patch
"add" operation (RFC 6902, section 4.1) over the pod document, and the
properties of `createPatch` stated against them.

Conventions of the embedding

* A Go slice whose nil-ness is observed by the program is an `Option (List α)`:
  `none` is the nil slice (the field is absent from the document), `some xs`
  is a non-nil slice (the field is present, possibly empty).
* The Kubernetes `core/v1` types carry the fields that `patch.go` reads or
  writes.
* A Go `int` container index is an `Int`; indices produced by `range` are
  bounded by the length of a slice, so no wrap-around is modelled.
* Go loops that grow a slice with `append` are folds that append at the end.
-/

namespace ApmWebhook

/-! ## Kubernetes core/v1 types -/

/-- The core/v1 VolumeMount: name of the volume and the path it is mounted at. -/
structure VolumeMount where
  Name : String
  MountPath : String
deriving DecidableEq

/-- The core/v1 EmptyDirVolumeSource; the program only builds its zero value. -/
structure EmptyDirVolumeSource where
  Medium : String
deriving DecidableEq

/-- The core/v1 VolumeSource: the pointer field EmptyDir, nil or set. -/
structure VolumeSource where
  EmptyDir : Option EmptyDirVolumeSource
deriving DecidableEq

/-- The core/v1 Volume. -/
structure Volume where
  Name : String
  VolumeSource : VolumeSource
deriving DecidableEq

/-- The core/v1 LocalObjectReference. -/
structure LocalObjectReference where
  Name : String
deriving DecidableEq

/-- The core/v1 SecretKeySelector. -/
structure SecretKeySelector where
  LocalObjectReference : LocalObjectReference
  Key : String
deriving DecidableEq

/-- The core/v1 EnvVarSource: the pointer field SecretKeyRef, nil or set. -/
structure EnvVarSource where
  SecretKeyRef : Option SecretKeySelector
deriving DecidableEq

/-- The core/v1 EnvVar: a literal Value (empty when unset) or a ValueFrom reference. -/
structure EnvVar where
  Name : String
  Value : String
  ValueFrom : Option EnvVarSource
deriving DecidableEq

/-- The core/v1 Container. -/
structure Container where
  Name : String
  Image : String
  Command : Option (List String)
  VolumeMounts : Option (List VolumeMount)
  Env : Option (List EnvVar)
deriving DecidableEq

/-- The core/v1 PodSpec. -/
structure PodSpec where
  Volumes : Option (List Volume)
  InitContainers : Option (List Container)
  Containers : Option (List Container)
deriving DecidableEq

/-! ## The types of patch.go -/

/-- The Go value stored in the interface-typed field of a patch operation:
one constructor for each dynamic type that patch.go stores there. -/
inductive PatchValue where
  | volume (v : Volume)
  | volumeList (vs : List Volume)
  | container (c : Container)
  | containerList (cs : List Container)
  | volumeMount (m : VolumeMount)
  | volumeMountList (ms : List VolumeMount)
  | envVar (e : EnvVar)
  | envVarList (es : List EnvVar)
deriving DecidableEq

/-- An operation of a JSON patch (patch.go, lines 11-15). -/
structure patchOperation where
  Op : String
  Path : String
  Value : PatchValue
deriving DecidableEq

/-- Modelled from the spec: the declaration of agentConfig is not in patch.go;
the spec gives it one attribute, environment, a mapping from variable name to
string value. The Go map is represented by its entries, listed in the order in
which the range statement visits them in the evaluation at hand. Go leaves that
order unspecified: two lists stand for the same map exactly when one is a
permutation of the other, and the keys of a map are pairwise distinct. -/
structure agentConfig where
  environment : List (String × String)
deriving DecidableEq

/-- Two entry lists hold the same map entries, possibly visited in another order. -/
def sameMap (a b : List (String × String)) : Prop := a.Perm b

/-- The keys of a Go map are pairwise distinct. -/
def uniqueKeys (m : List (String × String)) : Prop := (m.map Prod.fst).Nodup

instance (m : List (String × String)) : Decidable (uniqueKeys m) :=
  inferInstanceAs (Decidable (m.map Prod.fst).Nodup)

/-- The lexicographic order of names, character by character. -/
def nameBefore (a b : String) : Prop := a.data < b.data

instance (a b : String) : Decidable (nameBefore a b) :=
  inferInstanceAs (Decidable (a.data < b.data))

/-- A list of names is in increasing lexicographic order. -/
def sortedByName (names : List String) : Prop := names.Pairwise nameBefore

instance (names : List String) : Decidable (sortedByName names) :=
  inferInstanceAs (Decidable (names.Pairwise nameBefore))

/-- The Go function strconv.Itoa: base-10 rendering, with a minus sign for a negative number. -/
def strconv.Itoa (i : Int) : String :=
  match i with
  | Int.ofNat n => Nat.repr n
  | Int.negSucc n => "-" ++ Nat.repr (n + 1)

/-- patch.go, line 17. -/
def volumeName : String := "elastic-apm-agent"

/-- patch.go, lines 20-23. -/
def volumeMounts : VolumeMount :=
  { Name := volumeName, MountPath := "/elastic/apm/agent" }

/-- patch.go, lines 24-27. -/
def agentVolume : Volume :=
  { Name := volumeName, VolumeSource := { EmptyDir := some { Medium := "" } } }

/-- The first variable built by generateEnvironmentVariables (patch.go, lines 53-61). -/
def secretTokenVar : EnvVar :=
  { Name := "ELASTIC_APM_SECRET_TOKEN",
    Value := "",
    ValueFrom := some (EnvVarSource.mk (some
      { LocalObjectReference := { Name := "apm-server-apm-token" }, Key := "secret-token" })) }

/-- patch.go, lines 51-66: a one-element slice holding the secret-token variable,
then one append for each entry the range over the map yields. -/
def generateEnvironmentVariables (config : agentConfig) : List EnvVar :=
  let vars : List EnvVar := [secretTokenVar]
  config.environment.foldl
    (fun vars entry => vars ++ [{ Name := entry.1, Value := entry.2, ValueFrom := none }]) vars

/-- patch.go, lines 68-84. -/
def createVolumePatch (createArray : Bool) : patchOperation :=
  if createArray then
    { Op := "add", Path := "/spec/volumes", Value := PatchValue.volumeList [agentVolume] }
  else
    { Op := "add", Path := "/spec/volumes/-", Value := PatchValue.volume agentVolume }

/-- The local variable agentInitContainer of createInitContainerPatch (patch.go, lines 87-92). -/
def agentInitContainer : Container :=
  { Name := "elastic-java-agent",
    Image := "docker.elastic.co/observability/apm-agent-java:1.23.0",
    VolumeMounts := some [volumeMounts],
    Command := some ["cp", "-v", "/usr/agent/elastic-apm-agent.jar", "/elastic/apm/agent"],
    Env := none }

/-- patch.go, lines 86-108. -/
def createInitContainerPatch (createArray : Bool) : patchOperation :=
  if createArray then
    { Op := "add", Path := "/spec/initContainers",
      Value := PatchValue.containerList [agentInitContainer] }
  else
    { Op := "add", Path := "/spec/initContainers/-",
      Value := PatchValue.container agentInitContainer }

/-- patch.go, lines 112-135. -/
def createEnvVariablesPatches (envVariables : List EnvVar) (createArray : Bool) (index : Int) :
    List patchOperation :=
  let containerIndex := strconv.Itoa index
  let envVariablesPath := "/spec/containers/" ++ containerIndex ++ "/env"
  if createArray then
    [{ Op := "add", Path := envVariablesPath, Value := PatchValue.envVarList envVariables }]
  else
    let envVariablesPath := envVariablesPath ++ "/-"
    envVariables.foldl
      (fun patches envVariable =>
        patches ++
          [{ Op := "add", Path := envVariablesPath, Value := PatchValue.envVar envVariable }])
      []

/-- patch.go, lines 137-155. -/
def createVolumeMountsPatch (createArray : Bool) (index : Int) : patchOperation :=
  let containerIndex := strconv.Itoa index
  let volumeMountsPath := "/spec/containers/" ++ containerIndex ++ "/volumeMounts"
  if createArray then
    { Op := "add", Path := volumeMountsPath, Value := PatchValue.volumeMountList [volumeMounts] }
  else
    { Op := "add", Path := volumeMountsPath ++ "/-", Value := PatchValue.volumeMount volumeMounts }

/-- The range loop of createPatch (patch.go, lines 44-47): the containers still to visit,
the index of the next one, and the patches collected so far. -/
def createPatchLoop (envVariables : List EnvVar) :
    List Container → Int → List patchOperation → List patchOperation
  | [], _, patches => patches
  | container :: rest, index, patches =>
    let patches := patches ++ [createVolumeMountsPatch container.VolumeMounts.isNone index]
    let patches := patches ++ createEnvVariablesPatches envVariables container.Env.isNone index
    createPatchLoop envVariables rest (index + 1) patches

/-- patch.go, lines 30-49. -/
def createPatch (config : agentConfig) (spec : PodSpec) : List patchOperation :=
  let patches : List patchOperation := []
  let envVariables := generateEnvironmentVariables config
  let patches := patches ++ [createVolumePatch spec.Volumes.isNone]
  let patches := patches ++ [createInitContainerPatch spec.InitContainers.isNone]
  let containers := spec.Containers.getD []
  createPatchLoop envVariables containers 0 patches

/-! ## JSON pointers (RFC 6901) and the "add" operation (RFC 6902, section 4.1)

The patch is applied by the API server, outside this repository. The document
is the pod; its member "spec" is the PodSpec. An absent member is a `none`
field. Members other than those of the types above are not part of the
document model, so a pointer that names one does not resolve. No member name
of the model contains the characters `~` or `/`, so a reference token that
uses the escapes `~0` or `~1` names no member either.
-/

/-- The pieces of a character list between its slashes. -/
def splitSlash : List Char → List (List Char)
  | [] => [[]]
  | c :: cs =>
    if c = '/' then [] :: splitSlash cs
    else
      match splitSlash cs with
      | [] => [[c]]
      | t :: ts => (c :: t) :: ts

/-- The reference tokens of a JSON pointer: the empty string is the pointer to the whole
document, any other pointer is a sequence of tokens each preceded by a slash. -/
def parsePointer (path : String) : Option (List String) :=
  match path.data with
  | [] => some []
  | c :: cs => if c = '/' then some ((splitSlash cs).map String.mk) else none

/-- The value of a run of decimal digits, most significant digit first. -/
def digitsValue (t : List Char) : Nat :=
  t.foldl (fun acc c => 10 * acc + (c.toNat - 48)) 0

/-- The array index a reference token denotes (RFC 6901, section 4): the digit zero, or a
run of decimal digits that does not start with zero. -/
def parseIndex (t : List Char) : Option Nat :=
  match t with
  | [] => none
  | c :: cs =>
    if (c :: cs).all Char.isDigit then
      if c = '0' then (if cs = [] then some 0 else none) else some (digitsValue (c :: cs))
    else none

/-- Adding an element to an array: the token "-" appends it, an index not greater than the
length of the array inserts it before the element at that index. -/
def addToArray {α : Type} (xs : List α) (token : String) (x : α) : Option (List α) :=
  if token = "-" then some (xs ++ [x])
  else
    match parseIndex token.data with
    | some k => if k ≤ xs.length then some (xs.take k ++ x :: xs.drop k) else none
    | none => none

/-- The "add" operation below an array-valued member. With no token left the member itself
is the target: it is created, or replaced, by an array value. With one token left the
target is a position in the array, which has to exist. With more tokens the walk
descends into the element at the index the first token denotes. -/
def addArrayMember {α : Type} (asList : PatchValue → Option (List α))
    (asElem : PatchValue → Option α) (inner : α → List String → PatchValue → Option α)
    (member : Option (List α)) (tokens : List String) (value : PatchValue) :
    Option (Option (List α)) :=
  match tokens with
  | [] => (asList value).map some
  | [token] =>
    match member, asElem value with
    | some xs, some x => (addToArray xs token x).map some
    | _, _ => none
  | token :: rest =>
    match member, parseIndex token.data with
    | some xs, some k =>
      match xs[k]? with
      | some x => (inner x rest value).map (fun y => some (xs.set k y))
      | none => none
    | _, _ => none

/-- The volume held by a patch value. -/
def PatchValue.asVolume : PatchValue → Option Volume
  | PatchValue.volume v => some v
  | _ => none

/-- The array of volumes held by a patch value. -/
def PatchValue.asVolumeList : PatchValue → Option (List Volume)
  | PatchValue.volumeList vs => some vs
  | _ => none

/-- The container held by a patch value. -/
def PatchValue.asContainer : PatchValue → Option Container
  | PatchValue.container c => some c
  | _ => none

/-- The array of containers held by a patch value. -/
def PatchValue.asContainerList : PatchValue → Option (List Container)
  | PatchValue.containerList cs => some cs
  | _ => none

/-- The volume mount held by a patch value. -/
def PatchValue.asVolumeMount : PatchValue → Option VolumeMount
  | PatchValue.volumeMount m => some m
  | _ => none

/-- The array of volume mounts held by a patch value. -/
def PatchValue.asVolumeMountList : PatchValue → Option (List VolumeMount)
  | PatchValue.volumeMountList ms => some ms
  | _ => none

/-- The environment variable held by a patch value. -/
def PatchValue.asEnvVar : PatchValue → Option EnvVar
  | PatchValue.envVar e => some e
  | _ => none

/-- The array of environment variables held by a patch value. -/
def PatchValue.asEnvVarList : PatchValue → Option (List EnvVar)
  | PatchValue.envVarList es => some es
  | _ => none

/-- The walk below an array element none of whose members is part of the document model. -/
def addInLeaf {α : Type} (_x : α) (_tokens : List String) (_value : PatchValue) : Option α :=
  none

/-- The "add" operation below a container object: the first token names the member. -/
def addInContainer (c : Container) (tokens : List String) (value : PatchValue) :
    Option Container :=
  match tokens with
  | [] => none
  | name :: rest =>
    if name = "volumeMounts" then
      (addArrayMember PatchValue.asVolumeMountList PatchValue.asVolumeMount addInLeaf
        c.VolumeMounts rest value).map (fun m => { c with VolumeMounts := m })
    else if name = "env" then
      (addArrayMember PatchValue.asEnvVarList PatchValue.asEnvVar addInLeaf
        c.Env rest value).map (fun m => { c with Env := m })
    else none

/-- The "add" operation below the member "spec" of the pod: the first token names the member. -/
def addInSpec (spec : PodSpec) (tokens : List String) (value : PatchValue) : Option PodSpec :=
  match tokens with
  | [] => none
  | name :: rest =>
    if name = "volumes" then
      (addArrayMember PatchValue.asVolumeList PatchValue.asVolume addInLeaf
        spec.Volumes rest value).map (fun m => { spec with Volumes := m })
    else if name = "initContainers" then
      (addArrayMember PatchValue.asContainerList PatchValue.asContainer addInContainer
        spec.InitContainers rest value).map (fun m => { spec with InitContainers := m })
    else if name = "containers" then
      (addArrayMember PatchValue.asContainerList PatchValue.asContainer addInContainer
        spec.Containers rest value).map (fun m => { spec with Containers := m })
    else none

/-- One operation applied to the pod. Only "add" is interpreted; the result is none when
the operation fails. -/
def applyOperation (op : patchOperation) (spec : PodSpec) : Option PodSpec :=
  if op.Op = "add" then
    match parsePointer op.Path with
    | some (root :: rest) => if root = "spec" then addInSpec spec rest op.Value else none
    | _ => none
  else none

/-- The operations applied one after another; the first failure fails the whole patch. -/
def applyPatch : List patchOperation → PodSpec → Option PodSpec
  | [], spec => some spec
  | op :: ops, spec => (applyOperation op spec).bind (applyPatch ops)

/-- What a JSON pointer can resolve to in the pod document. -/
inductive Node where
  | object
  | array (length : Nat)
deriving DecidableEq

/-- Resolution of the tokens below an array-valued member whose elements are resolved by inner. -/
def resolveArrayMember {α : Type} (inner : α → List String → Option Node)
    (member : Option (List α)) (tokens : List String) : Option Node :=
  match member, tokens with
  | none, _ => none
  | some xs, [] => some (Node.array xs.length)
  | some xs, token :: rest =>
    match parseIndex token.data with
    | some k =>
      match xs[k]? with
      | some x => inner x rest
      | none => none
    | none => none

/-- Resolution below an array element none of whose members is part of the document model. -/
def resolveLeaf {α : Type} (_x : α) (tokens : List String) : Option Node :=
  match tokens with
  | [] => some Node.object
  | _ => none

/-- Resolution of the tokens below a container object. -/
def resolveInContainer (c : Container) (tokens : List String) : Option Node :=
  match tokens with
  | [] => some Node.object
  | name :: rest =>
    if name = "volumeMounts" then resolveArrayMember resolveLeaf c.VolumeMounts rest
    else if name = "env" then resolveArrayMember resolveLeaf c.Env rest
    else none

/-- Resolution of the tokens below the member "spec". -/
def resolveInSpec (spec : PodSpec) (tokens : List String) : Option Node :=
  match tokens with
  | [] => some Node.object
  | name :: rest =>
    if name = "volumes" then resolveArrayMember resolveLeaf spec.Volumes rest
    else if name = "initContainers" then
      resolveArrayMember resolveInContainer spec.InitContainers rest
    else if name = "containers" then resolveArrayMember resolveInContainer spec.Containers rest
    else none

/-- Resolution of a pointer, given by its tokens, in the pod document. -/
def resolve (spec : PodSpec) (tokens : List String) : Option Node :=
  match tokens with
  | [] => some Node.object
  | root :: rest => if root = "spec" then resolveInSpec spec rest else none


/-- The node a pointer's parent resolves to fits the last token of the pointer: the token
"-" requires an array, and a node that is not an object is only addressed by "-" or by an
array index. -/
def targetFits (tokens : List String) (node : Node) : Prop :=
  (tokens.getLast? = some "-" → ∃ n, node = Node.array n) ∧
    (node = Node.object ∨ tokens.getLast? = some "-" ∨
      ∃ t k, tokens.getLast? = some t ∧ parseIndex t.data = some k)

/-- The operation points at, or into, the member with the given name of the container at
index i: its pointer starts with the tokens spec, containers, the index i, and the name. -/
def targetsMember (name : String) (i : Nat) (op : patchOperation) : Bool :=
  match parsePointer op.Path with
  | some (root :: field :: t :: member :: _) =>
    (root == "spec") && (field == "containers") && (parseIndex t.data == some i) &&
      (member == name)
  | _ => false

/-! ## The pod the patch is meant to produce -/

/-- A container after injection: the agent volume mount after its volume mounts and the
given variables after its environment, an absent list read as empty; the other fields
are kept. -/
def injectedContainer (envVariables : List EnvVar) (c : Container) : Container :=
  { c with
    VolumeMounts := some (c.VolumeMounts.getD [] ++ [volumeMounts]),
    Env := some (c.Env.getD [] ++ envVariables) }

/-! ## Sample inputs -/

/-- The configuration of the scenarios of the spec: the single entry LOG_LEVEL = debug. -/
def scenarioConfig : agentConfig := { environment := [("LOG_LEVEL", "debug")] }

/-- A container with no volume mounts and no environment. -/
def bareContainer : Container :=
  { Name := "app", Image := "app:1", Command := none, VolumeMounts := none, Env := none }

/-- The pod of the first scenario of the spec: every field absent, one container. -/
def barePod : PodSpec :=
  { Volumes := none, InitContainers := none, Containers := some [bareContainer] }

/-- A volume that is not the agent volume. -/
def existingVolume : Volume :=
  { Name := "data", VolumeSource := { EmptyDir := none } }

/-- An environment variable that is not injected by the webhook. -/
def existingVar : EnvVar := { Name := "EXISTING", Value := "1", ValueFrom := none }

/-- The pod of the second scenario of the spec: one existing volume, and one container with
one existing environment variable. -/
def populatedPod : PodSpec :=
  { Volumes := some [existingVolume], InitContainers := none,
    Containers := some [{ bareContainer with Env := some [existingVar] }] }

/-! ## Observations on patch values -/

/-- The value is a JSON array rather than a single object. -/
def PatchValue.isArray : PatchValue → Bool
  | PatchValue.volumeList _ => true
  | PatchValue.containerList _ => true
  | PatchValue.volumeMountList _ => true
  | PatchValue.envVarList _ => true
  | _ => false

/-- The value is an array without elements; a single object is never empty. -/
def PatchValue.isEmpty : PatchValue → Bool
  | PatchValue.volumeList vs => vs.isEmpty
  | PatchValue.containerList cs => cs.isEmpty
  | PatchValue.volumeMountList ms => ms.isEmpty
  | PatchValue.envVarList es => es.isEmpty
  | _ => false

/-! ## Counting injected entries -/

/-- The number of volumes of the pod that carry the name of the agent volume. -/
def agentVolumeCount (spec : PodSpec) : Nat :=
  ((spec.Volumes.getD []).map Volume.Name).count "elastic-apm-agent"

/-- The number of init containers of the pod that carry the name of the agent init container. -/
def agentInitContainerCount (spec : PodSpec) : Nat :=
  ((spec.InitContainers.getD []).map Container.Name).count "elastic-java-agent"

/-- The number of variables with the given name in the env list of a container. -/
def envNameCount (name : String) (c : Container) : Nat :=
  ((c.Env.getD []).map EnvVar.Name).count name

/-- A pod that already has a volume with the name of the agent volume, and a container
whose environment already sets LOG_LEVEL. -/
def occupiedPod : PodSpec :=
  { Volumes := some [{ Name := "elastic-apm-agent", VolumeSource := { EmptyDir := none } }],
    InitContainers := none,
    Containers := some [{ bareContainer with
      Env := some [{ Name := "LOG_LEVEL", Value := "info", ValueFrom := none }] }] }

/-- A container after the operations computed from it have been applied twice: a list
that was present has the agent entries appended twice, a list that was absent is the one
the create operation sets. -/
def reappliedContainer (envVariables : List EnvVar) (c : Container) : Container :=
  { c with
    VolumeMounts := some (match c.VolumeMounts with
      | none => [volumeMounts]
      | some ms => ms ++ [volumeMounts, volumeMounts]),
    Env := some (match c.Env with
      | none => envVariables
      | some es => es ++ envVariables ++ envVariables) }

/-- The operation points at, or into, the volumeMounts or the env of the container at
index i. -/
def targetsContainer (i : Nat) (op : patchOperation) : Bool :=
  targetsMember "volumeMounts" i op || targetsMember "env" i op

/-- The volume mounts that occur in a patch value, directly or inside a container. -/
def PatchValue.mounts : PatchValue → List VolumeMount
  | PatchValue.volumeMount m => [m]
  | PatchValue.volumeMountList ms => ms
  | PatchValue.container c => c.VolumeMounts.getD []
  | PatchValue.containerList cs => cs.flatMap (fun c => c.VolumeMounts.getD [])
  | _ => []

/-- The volumes that a patch value holds. -/
def PatchValue.volumes : PatchValue → List Volume
  | PatchValue.volume v => [v]
  | PatchValue.volumeList vs => vs
  | _ => []

/-- The containers that a patch value holds. -/
def PatchValue.containers : PatchValue → List Container
  | PatchValue.container c => [c]
  | PatchValue.containerList cs => cs
  | _ => []

/-- A pod with two containers: the first with every field absent, the second with empty
but present lists. -/
def mixedPod : PodSpec :=
  { Volumes := some [], InitContainers := none,
    Containers := some [bareContainer,
      { bareContainer with Name := "sidecar", VolumeMounts := some [], Env := some [] }] }

/-- The bare pod after one injection for the configuration LOG_LEVEL = debug. -/
def injectedPod : PodSpec :=
  { Volumes := some [agentVolume],
    InitContainers := some [agentInitContainer],
    Containers := some [{ bareContainer with
      VolumeMounts := some [volumeMounts],
      Env := some [secretTokenVar,
        { Name := "LOG_LEVEL", Value := "debug", ValueFrom := none }] }] }

/-- The environment variables that a patch value holds. -/
def PatchValue.envVars : PatchValue → List EnvVar
  | PatchValue.envVar e => [e]
  | PatchValue.envVarList es => es
  | _ => []

/-! ## Closed forms of the loops -/

theorem foldl_append_singleton {α β : Type} (f : α → β) (xs : List α) (init : List β) :
    xs.foldl (fun acc x => acc ++ [f x]) init = init ++ xs.map f := by
  induction xs generalizing init with
  | nil => simp
  | cons x xs ih => simp [ih]

theorem generateEnvironmentVariables_eq (config : agentConfig) :
    generateEnvironmentVariables config =
      secretTokenVar ::
        config.environment.map (fun entry => { Name := entry.1, Value := entry.2, ValueFrom := none }) := by
  unfold generateEnvironmentVariables
  exact foldl_append_singleton (fun entry : String × String => EnvVar.mk entry.1 entry.2 none) _ _

theorem createEnvVariablesPatches_append (envVariables : List EnvVar) (index : Int) :
    createEnvVariablesPatches envVariables false index =
      envVariables.map (fun v =>
        { Op := "add", Path := "/spec/containers/" ++ strconv.Itoa index ++ "/env" ++ "/-",
          Value := PatchValue.envVar v }) := by
  unfold createEnvVariablesPatches
  simp only [Bool.false_eq_true, if_false]
  exact foldl_append_singleton (fun v : EnvVar => patchOperation.mk "add"
    ("/spec/containers/" ++ strconv.Itoa index ++ "/env" ++ "/-") (PatchValue.envVar v)) _ _

theorem createPatchLoop_eq (envVariables : List EnvVar) (containers : List Container) (k : Nat)
    (patches : List patchOperation) :
    createPatchLoop envVariables containers (k : Int) patches =
      patches ++ (containers.enumFrom k).flatMap (fun ic =>
        createVolumeMountsPatch ic.2.VolumeMounts.isNone (ic.1 : Int) ::
          createEnvVariablesPatches envVariables ic.2.Env.isNone (ic.1 : Int)) := by
  induction containers generalizing k patches with
  | nil => simp [createPatchLoop]
  | cons c cs ih =>
    have h : ((k : Int) + 1) = ((k + 1 : Nat) : Int) := by push_cast; rfl
    simp only [createPatchLoop, h, ih, List.enumFrom_cons, List.flatMap_cons, List.append_assoc,
      List.singleton_append, List.cons_append, List.nil_append]

/-! ## The decimal rendering of an index -/

theorem digitChar_isDigit (m : Nat) (h : m < 10) :
    (Nat.digitChar m).isDigit = true ∧ (Nat.digitChar m).toNat - 48 = m ∧
      (Nat.digitChar m = '0' ↔ m = 0) := by
  interval_cases m <;> decide

theorem digitsValue_append (ds : List Char) (d : Char) :
    digitsValue (ds ++ [d]) = 10 * digitsValue ds + (d.toNat - 48) := by
  simp [digitsValue, List.foldl_append]

/-- With enough fuel the digit loop yields a canonical decimal numeral. -/
theorem toDigitsCore_decimal (fuel : Nat) : ∀ (n : Nat) (acc : List Char), n < fuel →
    ∃ ds : List Char, Nat.toDigitsCore 10 fuel n acc = ds ++ acc ∧ ds ≠ [] ∧
      (∀ c ∈ ds, c.isDigit = true) ∧ digitsValue ds = n ∧
      (ds.head? = some '0' → ds = ['0'] ∧ n = 0) := by
  induction fuel with
  | zero => intro n acc h; exact absurd h (Nat.not_lt_zero _)
  | succ fuel ih =>
    intro n acc hn
    rw [Nat.toDigitsCore]
    by_cases h10 : n / 10 = 0
    · have hlt : n < 10 := by omega
      obtain ⟨hd, hv, hz⟩ := digitChar_isDigit (n % 10) (Nat.mod_lt _ (by decide))
      refine ⟨[Nat.digitChar (n % 10)], by simp [h10], by simp, ?_, ?_, ?_⟩
      · intro c hc
        rw [List.mem_singleton] at hc
        rw [hc]; exact hd
      · simp only [digitsValue, List.foldl_cons, List.foldl_nil, hv]
        omega
      · intro h
        simp only [List.head?_cons, Option.some.injEq] at h
        have := hz.mp h
        exact ⟨by rw [h], by omega⟩
    · obtain ⟨ds, hds, hne, hdig, hval, hz⟩ :=
        ih (n / 10) (Nat.digitChar (n % 10) :: acc) (by omega)
      obtain ⟨hd, hv, _⟩ := digitChar_isDigit (n % 10) (Nat.mod_lt _ (by decide))
      refine ⟨ds ++ [Nat.digitChar (n % 10)], by simp [h10, hds], by simp, ?_, ?_, ?_⟩
      · intro c hc
        rcases List.mem_append.mp hc with h | h
        · exact hdig c h
        · rw [List.mem_singleton] at h
          rw [h]; exact hd
      · rw [digitsValue_append, hval, hv]
        omega
      · intro h
        have hh : ds.head? = some '0' := by
          cases ds with
          | nil => exact absurd rfl hne
          | cons a t => simpa using h
        exact absurd (hz hh).2 h10

theorem repr_decimal (n : Nat) :
    (Nat.repr n).data ≠ [] ∧ (∀ c ∈ (Nat.repr n).data, c.isDigit = true) ∧
      digitsValue (Nat.repr n).data = n ∧
      ((Nat.repr n).data.head? = some '0' → (Nat.repr n).data = ['0'] ∧ n = 0) := by
  obtain ⟨ds, hds, hne, hdig, hval, hz⟩ := toDigitsCore_decimal (n + 1) n [] (Nat.lt_succ_self n)
  have h : (Nat.repr n).data = ds := by
    show Nat.toDigitsCore 10 (n + 1) n [] = ds
    rw [hds, List.append_nil]
  rw [h]
  exact ⟨hne, hdig, hval, hz⟩

/-- The decimal rendering of a number reads back as that number. -/
theorem parseIndex_repr (n : Nat) : parseIndex (Nat.repr n).data = some n := by
  obtain ⟨hne, hdig, hval, hz⟩ := repr_decimal n
  cases hd : (Nat.repr n).data with
  | nil => exact absurd hd hne
  | cons c cs =>
    rw [hd] at hdig hval hz
    have hall : (c :: cs).all Char.isDigit = true := List.all_eq_true.mpr hdig
    unfold parseIndex
    simp only [hall, if_true]
    by_cases hc : c = '0'
    · have := hz (by simp [hc])
      obtain ⟨h1, h2⟩ := this
      have hcs : cs = [] := (List.cons.inj h1).2
      simp [hc, hcs, h2]
    · simp [hc, hval]

theorem repr_injective (m n : Nat) (h : Nat.repr m = Nat.repr n) : m = n := by
  have h1 := parseIndex_repr m
  rw [h, parseIndex_repr n] at h1
  exact (Option.some.inj h1).symm

theorem slash_not_mem_repr (n : Nat) : '/' ∉ (Nat.repr n).data := by
  intro h
  have := (repr_decimal n).2.1 _ h
  exact absurd this (by decide)

theorem Itoa_natCast (k : Nat) : strconv.Itoa (k : Int) = Nat.repr k := rfl

/-! ## The pointers of the emitted paths -/

theorem splitSlash_no_slash (t : List Char) (h : '/' ∉ t) : splitSlash t = [t] := by
  induction t with
  | nil => rfl
  | cons c cs ih =>
    have hc : c ≠ '/' := fun e => h (by simp [e])
    have hcs : '/' ∉ cs := fun e => h (List.mem_cons_of_mem _ e)
    simp [splitSlash, hc, ih hcs]

theorem splitSlash_append (t r : List Char) (h : '/' ∉ t) :
    splitSlash (t ++ '/' :: r) = t :: splitSlash r := by
  induction t with
  | nil => simp [splitSlash]
  | cons c cs ih =>
    have hc : c ≠ '/' := fun e => h (by simp [e])
    have hcs : '/' ∉ cs := fun e => h (List.mem_cons_of_mem _ e)
    simp [splitSlash, hc, ih hcs]

theorem parsePointer_container (s : String) (r : List Char) (h : '/' ∉ s.data) :
    parsePointer ("/spec/containers/" ++ s ++ String.mk ('/' :: r)) =
      some ("spec" :: "containers" :: s :: (splitSlash r).map String.mk) := by
  have hd : ("/spec/containers/" ++ s ++ String.mk ('/' :: r)).data =
      '/' :: ("spec".data ++ '/' :: ("containers".data ++ '/' :: (s.data ++ '/' :: r))) := by
    simp only [String.data_append]
    rfl
  unfold parsePointer
  rw [hd]
  simp only [if_true]
  rw [splitSlash_append _ _ (by decide), splitSlash_append _ _ (by decide),
    splitSlash_append _ _ h]
  rfl

theorem parsePointer_volumeMounts (k : Nat) :
    parsePointer ("/spec/containers/" ++ Nat.repr k ++ "/volumeMounts") =
      some ["spec", "containers", Nat.repr k, "volumeMounts"] :=
  parsePointer_container (Nat.repr k) "volumeMounts".data (slash_not_mem_repr k)

theorem parsePointer_volumeMounts_append (k : Nat) :
    parsePointer ("/spec/containers/" ++ Nat.repr k ++ "/volumeMounts" ++ "/-") =
      some ["spec", "containers", Nat.repr k, "volumeMounts", "-"] := by
  rw [String.append_assoc _ "/volumeMounts" "/-"]
  exact parsePointer_container (Nat.repr k) "volumeMounts/-".data (slash_not_mem_repr k)

theorem parsePointer_env (k : Nat) :
    parsePointer ("/spec/containers/" ++ Nat.repr k ++ "/env") =
      some ["spec", "containers", Nat.repr k, "env"] :=
  parsePointer_container (Nat.repr k) "env".data (slash_not_mem_repr k)

theorem parsePointer_env_append (k : Nat) :
    parsePointer ("/spec/containers/" ++ Nat.repr k ++ "/env" ++ "/-") =
      some ["spec", "containers", Nat.repr k, "env", "-"] := by
  rw [String.append_assoc _ "/env" "/-"]
  exact parsePointer_container (Nat.repr k) "env/-".data (slash_not_mem_repr k)

/-! ## Applying the operations of one container -/

theorem applyPatch_append (a b : List patchOperation) (spec : PodSpec) :
    applyPatch (a ++ b) spec = (applyPatch a spec).bind (applyPatch b) := by
  induction a generalizing spec with
  | nil => simp [applyPatch]
  | cons op ops ih =>
    simp only [List.cons_append, applyPatch]
    cases applyOperation op spec with
    | none => rfl
    | some s => simp [ih]

theorem apply_createVolumeMountsPatch (spec : PodSpec) (cs : List Container) (c : Container)
    (k : Nat) (hcs : spec.Containers = some cs) (hk : cs[k]? = some c) :
    applyOperation (createVolumeMountsPatch c.VolumeMounts.isNone (k : Int)) spec =
      some { spec with Containers := some (cs.set k
        { c with VolumeMounts := some (c.VolumeMounts.getD [] ++ [volumeMounts]) }) } := by
  cases hvm : c.VolumeMounts with
  | none =>
    simp [createVolumeMountsPatch, applyOperation, Itoa_natCast, parsePointer_volumeMounts,
      addInSpec, addArrayMember, parseIndex_repr, hcs, hk, addInContainer,
      PatchValue.asVolumeMountList]
  | some ms =>
    simp [createVolumeMountsPatch, applyOperation, Itoa_natCast,
      parsePointer_volumeMounts_append, addInSpec, addArrayMember, parseIndex_repr, hcs, hk,
      addInContainer, PatchValue.asVolumeMount, addToArray, hvm]

theorem set_of_getElem? {α : Type} (cs : List α) (k : Nat) (c : α) (h : cs[k]? = some c) :
    cs.set k c = cs := by
  apply List.ext_getElem?
  intro i
  by_cases hik : k = i
  · subst hik
    rw [List.getElem?_set_self (List.getElem?_eq_some.mp h).1, h]
  · rw [List.getElem?_set_ne hik]

theorem getElem?_set_of_getElem? {α : Type} (cs : List α) (k : Nat) (c d : α)
    (h : cs[k]? = some c) : (cs.set k d)[k]? = some d :=
  List.getElem?_set_self (List.getElem?_eq_some.mp h).1

theorem apply_createEnvVariablesPatches_create (envVariables : List EnvVar) (spec : PodSpec)
    (cs : List Container) (c : Container) (k : Nat) (hcs : spec.Containers = some cs)
    (hk : cs[k]? = some c) :
    applyPatch (createEnvVariablesPatches envVariables true (k : Int)) spec =
      some { spec with Containers := some (cs.set k { c with Env := some envVariables }) } := by
  simp [createEnvVariablesPatches, applyPatch, applyOperation, Itoa_natCast, parsePointer_env,
    addInSpec, addArrayMember, parseIndex_repr, hcs, hk, addInContainer,
    PatchValue.asEnvVarList]

theorem apply_createEnvVariablesPatches_append (envVariables : List EnvVar) :
    ∀ (spec : PodSpec) (cs : List Container) (c : Container) (k : Nat) (es : List EnvVar),
      spec.Containers = some cs → cs[k]? = some c → c.Env = some es →
      applyPatch (createEnvVariablesPatches envVariables false (k : Int)) spec =
        some { spec with
          Containers := some (cs.set k { c with Env := some (es ++ envVariables) }) } := by
  induction envVariables with
  | nil =>
    intro spec cs c k es hcs hk hes
    have hc : ({ c with Env := some (es ++ []) } : Container) = c := by
      cases c; simp_all
    simp only [createEnvVariablesPatches_append, List.map_nil, applyPatch, hc,
      set_of_getElem? cs k c hk, ← hcs]
  | cons v vs ih =>
    intro spec cs c k es hcs hk hes
    have hstep : applyOperation
        { Op := "add", Path := "/spec/containers/" ++ strconv.Itoa (k : Int) ++ "/env" ++ "/-",
          Value := PatchValue.envVar v } spec =
        some { spec with Containers := some (cs.set k { c with Env := some (es ++ [v]) }) } := by
      simp [applyOperation, Itoa_natCast, parsePointer_env_append, addInSpec, addArrayMember,
        parseIndex_repr, hcs, hk, addInContainer, PatchValue.asEnvVar, addToArray, hes]
    have hrest := ih { spec with Containers := some (cs.set k { c with Env := some (es ++ [v]) }) }
      (cs.set k { c with Env := some (es ++ [v]) }) { c with Env := some (es ++ [v]) } k
      (es ++ [v]) rfl (getElem?_set_of_getElem? cs k c _ hk) rfl
    rw [createEnvVariablesPatches_append] at hrest ⊢
    simp only [List.map_cons, applyPatch, hstep, Option.some_bind]
    rw [hrest]
    simp [List.set_set]

/-- Applying the operations emitted for one container. -/
theorem apply_containerPatches (envVariables : List EnvVar) (spec : PodSpec)
    (cs : List Container) (c : Container) (k : Nat) (hcs : spec.Containers = some cs)
    (hk : cs[k]? = some c) :
    applyPatch (createVolumeMountsPatch c.VolumeMounts.isNone (k : Int) ::
        createEnvVariablesPatches envVariables c.Env.isNone (k : Int)) spec =
      some { spec with Containers := some (cs.set k (injectedContainer envVariables c)) } := by
  have hvm := apply_createVolumeMountsPatch spec cs c k hcs hk
  simp only [applyPatch, hvm, Option.some_bind]
  cases he : c.Env with
  | none =>
    rw [Option.isNone_none, apply_createEnvVariablesPatches_create envVariables _ _ _ k rfl
      (getElem?_set_of_getElem? cs k c _ hk)]
    simp [List.set_set, injectedContainer, he]
  | some es =>
    rw [Option.isNone_some, apply_createEnvVariablesPatches_append envVariables _ _ _ k es rfl
      (getElem?_set_of_getElem? cs k c _ hk) rfl]
    simp [List.set_set, injectedContainer, he]

/-- Applying the operations of the remaining containers, those before them being done. -/
theorem apply_containers (envVariables : List EnvVar) :
    ∀ (rest done : List Container) (spec : PodSpec), spec.Containers = some (done ++ rest) →
      applyPatch ((rest.enumFrom done.length).flatMap (fun ic =>
        createVolumeMountsPatch ic.2.VolumeMounts.isNone (ic.1 : Int) ::
          createEnvVariablesPatches envVariables ic.2.Env.isNone (ic.1 : Int))) spec =
      some { spec with
        Containers := some (done ++ rest.map (injectedContainer envVariables)) } := by
  intro rest
  induction rest with
  | nil =>
    intro done spec hcs
    simp only [List.enumFrom_nil, List.flatMap_nil, applyPatch, List.map_nil]
    rw [← hcs]
  | cons c rest ih =>
    intro done spec hcs
    have hk : (done ++ c :: rest)[done.length]? = some c := by
      rw [List.getElem?_append_right (Nat.le_refl _)]
      simp
    have hblock := apply_containerPatches envVariables spec (done ++ c :: rest) c done.length hcs hk
    have hset : (done ++ c :: rest).set done.length (injectedContainer envVariables c) =
        (done ++ [injectedContainer envVariables c]) ++ rest := by simp
    rw [hset] at hblock
    have hrest := ih (done ++ [injectedContainer envVariables c])
      { spec with
        Containers := some ((done ++ [injectedContainer envVariables c]) ++ rest) } rfl
    simp only [List.length_append, List.length_singleton] at hrest
    simp only [List.enumFrom_cons, List.flatMap_cons, applyPatch_append, hblock,
      Option.some_bind, hrest]
    simp

/-! ## A successful "add" has a target -/

theorem getLast?_cons_cons {α : Type} (a b : α) (l : List α) :
    (a :: b :: l).getLast? = (b :: l).getLast? := by
  simp [List.getLast?_cons_cons]

theorem addArrayMember_target {α : Type} (asList : PatchValue → Option (List α))
    (asElem : PatchValue → Option α) (inner : α → List String → PatchValue → Option α)
    (rinner : α → List String → Option Node)
    (hinner : ∀ x tokens value y, tokens ≠ [] → inner x tokens value = some y →
      ∃ node, rinner x tokens.dropLast = some node ∧ targetFits tokens node)
    (member : Option (List α)) (tokens : List String) (value : PatchValue)
    (r : Option (List α)) (hne : tokens ≠ [])
    (h : addArrayMember asList asElem inner member tokens value = some r) :
    ∃ node, resolveArrayMember rinner member tokens.dropLast = some node ∧
      targetFits tokens node := by
  match tokens, hne with
  | [token], _ =>
    unfold addArrayMember at h
    cases member with
    | none => simp at h
    | some xs =>
      cases hx : asElem value with
      | none => simp [hx] at h
      | some x =>
        simp only [hx, Option.map_eq_some'] at h
        obtain ⟨ys, hys, _⟩ := h
        refine ⟨Node.array xs.length, by simp [resolveArrayMember], ⟨fun _ => ⟨_, rfl⟩, ?_⟩⟩
        right
        unfold addToArray at hys
        by_cases ht : token = "-"
        · left; simp [ht]
        · right
          simp only [ht, if_false] at hys
          cases hp : parseIndex token.data with
          | none => simp [hp] at hys
          | some k => exact ⟨token, k, by simp, hp⟩
  | token :: t2 :: rest, _ =>
    unfold addArrayMember at h
    cases member with
    | none => simp at h
    | some xs =>
      cases hp : parseIndex token.data with
      | none => simp [hp] at h
      | some k =>
        cases hx : xs[k]? with
        | none => simp [hp, hx] at h
        | some x =>
          simp only [hp, hx, Option.map_eq_some'] at h
          obtain ⟨y, hy, _⟩ := h
          obtain ⟨node, hnode, hfit⟩ := hinner x (t2 :: rest) value y (by simp) hy
          refine ⟨node, ?_, ?_⟩
          · simp only [List.dropLast_cons₂, resolveArrayMember, hp, hx]
            exact hnode
          · unfold targetFits at hfit ⊢
            rw [getLast?_cons_cons]
            exact hfit

theorem addInLeaf_target {α : Type} (x : α) (tokens : List String) (value : PatchValue) (y : α)
    (_hne : tokens ≠ []) (h : addInLeaf x tokens value = some y) :
    ∃ node, resolveLeaf x tokens.dropLast = some node ∧ targetFits tokens node := by
  simp [addInLeaf] at h

theorem addInContainer_target (c : Container) (tokens : List String) (value : PatchValue)
    (y : Container) (hne : tokens ≠ []) (h : addInContainer c tokens value = some y) :
    ∃ node, resolveInContainer c tokens.dropLast = some node ∧ targetFits tokens node := by
  match tokens, hne with
  | [name], _ =>
    unfold addInContainer at h
    refine ⟨Node.object, by simp [resolveInContainer], ?_, Or.inl rfl⟩
    intro hl
    simp only [List.getLast?_singleton, Option.some.injEq] at hl
    subst hl
    simp at h
  | name :: t2 :: rest, _ =>
    unfold addInContainer at h
    simp only [List.dropLast_cons₂, resolveInContainer]
    unfold targetFits
    rw [getLast?_cons_cons]
    by_cases h1 : name = "volumeMounts"
    · simp only [h1, if_true, Option.map_eq_some'] at h ⊢
      obtain ⟨m, hm, _⟩ := h
      exact addArrayMember_target _ _ _ resolveLeaf addInLeaf_target _ _ _ _ (by simp) hm
    · by_cases h2 : name = "env"
      · subst h2
        simp only [show ¬ ("env" = "volumeMounts") by decide, if_false, if_true,
          Option.map_eq_some'] at h ⊢
        obtain ⟨m, hm, _⟩ := h
        exact addArrayMember_target _ _ _ resolveLeaf addInLeaf_target _ _ _ _ (by simp) hm
      · simp [h1, h2] at h

theorem addInSpec_target (spec : PodSpec) (tokens : List String) (value : PatchValue)
    (y : PodSpec) (hne : tokens ≠ []) (h : addInSpec spec tokens value = some y) :
    ∃ node, resolveInSpec spec tokens.dropLast = some node ∧ targetFits tokens node := by
  match tokens, hne with
  | [name], _ =>
    unfold addInSpec at h
    refine ⟨Node.object, by simp [resolveInSpec], ?_, Or.inl rfl⟩
    intro hl
    simp only [List.getLast?_singleton, Option.some.injEq] at hl
    subst hl
    simp at h
  | name :: t2 :: rest, _ =>
    unfold addInSpec at h
    simp only [List.dropLast_cons₂, resolveInSpec]
    unfold targetFits
    rw [getLast?_cons_cons]
    by_cases h1 : name = "volumes"
    · simp only [h1, if_true, Option.map_eq_some'] at h ⊢
      obtain ⟨m, hm, _⟩ := h
      exact addArrayMember_target _ _ _ resolveLeaf addInLeaf_target _ _ _ _ (by simp) hm
    · by_cases h2 : name = "initContainers"
      · subst h2
        simp only [show ¬ ("initContainers" = "volumes") by decide, if_false, if_true,
          Option.map_eq_some'] at h ⊢
        obtain ⟨m, hm, _⟩ := h
        exact addArrayMember_target _ _ _ resolveInContainer addInContainer_target _ _ _ _
          (by simp) hm
      · by_cases h3 : name = "containers"
        · subst h3
          simp only [show ¬ ("containers" = "volumes") by decide,
            show ¬ ("containers" = "initContainers") by decide, if_false, if_true,
            Option.map_eq_some'] at h ⊢
          obtain ⟨m, hm, _⟩ := h
          exact addArrayMember_target _ _ _ resolveInContainer addInContainer_target _ _ _ _
            (by simp) hm
        · simp [h1, h2, h3] at h

/-- An operation that applies has a pointer whose parent resolves to a node fitting its last token. -/
theorem applyOperation_target (op : patchOperation) (spec result : PodSpec)
    (h : applyOperation op spec = some result) :
    ∃ tokens node, parsePointer op.Path = some tokens ∧ tokens ≠ [] ∧
      resolve spec tokens.dropLast = some node ∧ targetFits tokens node := by
  unfold applyOperation at h
  by_cases hop : op.Op = "add"
  · simp only [hop, if_true] at h
    cases hp : parsePointer op.Path with
    | none => simp [hp] at h
    | some tokens =>
      match tokens, hp with
      | [], hp => simp [hp] at h
      | [root], hp =>
        simp only [hp] at h
        by_cases hr : root = "spec"
        · simp [hr, addInSpec] at h
        · simp [hr] at h
      | root :: t2 :: rest, hp =>
        simp only [hp] at h
        by_cases hr : root = "spec"
        · simp only [hr, if_true] at h
          obtain ⟨node, hnode, hfit⟩ := addInSpec_target spec (t2 :: rest) _ _ (by simp) h
          refine ⟨_, node, rfl, by simp, ?_, ?_⟩
          · simp only [List.dropLast_cons₂, resolve, hr, if_true]
            exact hnode
          · unfold targetFits at hfit ⊢
            rw [getLast?_cons_cons]
            exact hfit
        · simp [hr] at h
  · simp [hop] at h

/-- When a patch applies, so does each operation to the document its predecessors produce. -/
theorem applyPatch_split (pre : List patchOperation) (op : patchOperation)
    (post : List patchOperation) (spec result : PodSpec)
    (h : applyPatch (pre ++ op :: post) spec = some result) :
    ∃ doc next, applyPatch pre spec = some doc ∧ applyOperation op doc = some next := by
  rw [applyPatch_append] at h
  cases hpre : applyPatch pre spec with
  | none => simp [hpre] at h
  | some doc =>
    simp only [hpre, Option.some_bind, applyPatch] at h
    cases hop : applyOperation op doc with
    | none => simp [hop] at h
    | some next => exact ⟨doc, next, rfl, hop⟩

theorem parseIndex_member_names :
    parseIndex "volumes".data = none ∧ parseIndex "initContainers".data = none ∧
      parseIndex "volumeMounts".data = none ∧ parseIndex "env".data = none := by
  decide

theorem resolve_container_index (doc : PodSpec) (t : String) (more : List String) (node : Node)
    (h : resolve doc ("spec" :: "containers" :: t :: more) = some node) :
    ∃ i, parseIndex t.data = some i ∧ i < (doc.Containers.getD []).length := by
  simp only [resolve, resolveInSpec, if_true, show ¬ ("containers" = "volumes") by decide,
    show ¬ ("containers" = "initContainers") by decide, if_false] at h
  unfold resolveArrayMember at h
  cases hc : doc.Containers with
  | none => simp [hc] at h
  | some xs =>
    cases hp : parseIndex t.data with
    | none => simp [hc, hp] at h
    | some k =>
      cases hx : xs[k]? with
      | none => simp [hc, hp, hx] at h
      | some x =>
        exact ⟨k, rfl, by simpa using (List.getElem?_eq_some.mp hx).1⟩

/-! ## The shape of the output -/

/-- The accumulating loops of createPatch in closed form. -/
theorem createPatch_eq (config : agentConfig) (spec : PodSpec) :
    createPatch config spec =
      createVolumePatch spec.Volumes.isNone ::
        createInitContainerPatch spec.InitContainers.isNone ::
          ((spec.Containers.getD []).enumFrom 0).flatMap (fun ic =>
            createVolumeMountsPatch ic.2.VolumeMounts.isNone (ic.1 : Int) ::
              createEnvVariablesPatches (generateEnvironmentVariables config)
                ic.2.Env.isNone (ic.1 : Int)) := by
  have hloop := createPatchLoop_eq (generateEnvironmentVariables config)
    (spec.Containers.getD []) 0
  simp only [Nat.cast_zero] at hloop
  simp only [createPatch, hloop, List.nil_append, List.singleton_append, List.cons_append]

/-- The pointers of the operations of createPatch. -/
theorem createPatch_tokens (config : agentConfig) (spec : PodSpec) (op : patchOperation)
    (h : op ∈ createPatch config spec) :
    ∃ tokens, parsePointer op.Path = some tokens ∧
      (tokens = ["spec", "volumes"] ∨ tokens = ["spec", "volumes", "-"] ∨
        tokens = ["spec", "initContainers"] ∨ tokens = ["spec", "initContainers", "-"] ∨
        ∃ k name, (name = "volumeMounts" ∨ name = "env") ∧
          (tokens = ["spec", "containers", Nat.repr k, name] ∨
            tokens = ["spec", "containers", Nat.repr k, name, "-"])) := by
  rw [createPatch_eq] at h
  simp only [List.mem_cons, List.mem_flatMap] at h
  rcases h with h | h | ⟨⟨k, c⟩, _, h | h⟩
  · subst h
    cases spec.Volumes
    · exact ⟨["spec", "volumes"], by decide, Or.inl rfl⟩
    · exact ⟨["spec", "volumes", "-"], by rw [Option.isNone_some]; decide, Or.inr (Or.inl rfl)⟩
  · subst h
    cases spec.InitContainers
    · exact ⟨["spec", "initContainers"], by decide, Or.inr (Or.inr (Or.inl rfl))⟩
    · exact ⟨["spec", "initContainers", "-"], by rw [Option.isNone_some]; decide,
        Or.inr (Or.inr (Or.inr (Or.inl rfl)))⟩
  · subst h
    dsimp only
    cases c.VolumeMounts
    · refine ⟨_, parsePointer_volumeMounts k, ?_⟩
      exact Or.inr (Or.inr (Or.inr (Or.inr ⟨k, "volumeMounts", Or.inl rfl, Or.inl rfl⟩)))
    · refine ⟨_, parsePointer_volumeMounts_append k, ?_⟩
      exact Or.inr (Or.inr (Or.inr (Or.inr ⟨k, "volumeMounts", Or.inl rfl, Or.inr rfl⟩)))
  · dsimp only at h
    cases he : c.Env with
    | none =>
      simp only [he, Option.isNone_none, createEnvVariablesPatches, if_true,
        List.mem_singleton] at h
      subst h
      refine ⟨_, parsePointer_env k, ?_⟩
      exact Or.inr (Or.inr (Or.inr (Or.inr ⟨k, "env", Or.inr rfl, Or.inl rfl⟩)))
    | some es =>
      simp only [he, Option.isNone_some, createEnvVariablesPatches_append, List.mem_map] at h
      obtain ⟨v, _, hv⟩ := h
      subst hv
      refine ⟨_, parsePointer_env_append k, ?_⟩
      exact Or.inr (Or.inr (Or.inr (Or.inr ⟨k, "env", Or.inr rfl, Or.inr rfl⟩)))

/-! ## The operations that target one container -/

theorem targetsMember_createVolumePatch (name : String) (i : Nat) (b : Bool) :
    targetsMember name i (createVolumePatch b) = false := by
  cases b <;> rfl

theorem targetsMember_createInitContainerPatch (name : String) (i : Nat) (b : Bool) :
    targetsMember name i (createInitContainerPatch b) = false := by
  cases b <;> rfl

theorem targetsMember_createVolumeMountsPatch (name : String) (i j : Nat) (b : Bool) :
    targetsMember name i (createVolumeMountsPatch b (j : Int)) =
      ((j == i) && ("volumeMounts" == name)) := by
  cases b <;>
    simp [targetsMember, createVolumeMountsPatch, Itoa_natCast, parsePointer_volumeMounts,
      parsePointer_volumeMounts_append, parseIndex_repr]

theorem filter_createEnvVariablesPatches (envVariables : List EnvVar) (name : String)
    (i j : Nat) (b : Bool) :
    (createEnvVariablesPatches envVariables b (j : Int)).filter (targetsMember name i) =
      if j = i ∧ "env" = name then createEnvVariablesPatches envVariables b (j : Int)
      else [] := by
  have hall : ∀ op ∈ createEnvVariablesPatches envVariables b (j : Int),
      targetsMember name i op = ((j == i) && ("env" == name)) := by
    intro op hop
    cases b
    · simp only [createEnvVariablesPatches_append, List.mem_map] at hop
      obtain ⟨v, _, hv⟩ := hop
      subst hv
      simp [targetsMember, Itoa_natCast, parsePointer_env_append, parseIndex_repr]
    · simp only [createEnvVariablesPatches, if_true, List.mem_singleton] at hop
      subst hop
      simp [targetsMember, Itoa_natCast, parsePointer_env, parseIndex_repr]
  by_cases h : j = i ∧ "env" = name
  · rw [if_pos h, List.filter_eq_self]
    intro op hop
    rw [hall op hop]
    simp [h.1, h.2]
  · rw [if_neg h, List.filter_eq_nil_iff]
    intro op hop
    rw [hall op hop]
    simpa using h

theorem flatMap_enumFrom_single {α β : Type} (f : Nat × α → List β) (g : Nat × α → List β)
    (i : Nat) (hg : ∀ j x, g (j, x) = if j = i then f (j, x) else []) :
    ∀ (xs : List α) (n : Nat) (x : α), n ≤ i → xs[i - n]? = some x →
      (xs.enumFrom n).flatMap g = f (i, x) := by
  intro xs
  induction xs with
  | nil => intro n x _ h; simp at h
  | cons y ys ih =>
    intro n x hn h
    rw [List.enumFrom_cons, List.flatMap_cons, hg]
    by_cases hni : n = i
    · subst hni
      simp only [Nat.sub_self, List.getElem?_cons_zero, Option.some.injEq] at h
      subst h
      have hnil : (ys.enumFrom (n + 1)).flatMap g = [] := by
        rw [List.flatMap_eq_nil_iff]
        intro jx hjx
        have := List.le_fst_of_mem_enumFrom hjx
        obtain ⟨j, x⟩ := jx
        rw [hg, if_neg]
        simp only at this
        omega
      simp [hnil]
    · rw [if_neg hni, List.nil_append]
      have h2 : ys[i - (n + 1)]? = some x := by
        have : i - n = (i - (n + 1)) + 1 := by omega
        rw [this, List.getElem?_cons_succ] at h
        exact h
      exact ih (n + 1) x (by omega) h2

theorem filter_flatMap {α β : Type} (p : β → Bool) (f : α → List β) (xs : List α) :
    (xs.flatMap f).filter p = xs.flatMap (fun a => (f a).filter p) := by
  induction xs with
  | nil => rfl
  | cons x xs ih => simp [List.flatMap_cons, List.filter_append, ih]

/-- The operations of createPatch that target one member of one container. -/
theorem filter_createPatch (config : agentConfig) (spec : PodSpec) (name : String) (i : Nat)
    (c : Container) (h : (spec.Containers.getD [])[i]? = some c) :
    (createPatch config spec).filter (targetsMember name i) =
      (if "volumeMounts" = name then [createVolumeMountsPatch c.VolumeMounts.isNone (i : Int)]
        else []) ++
      (if "env" = name then
        createEnvVariablesPatches (generateEnvironmentVariables config) c.Env.isNone (i : Int)
        else []) := by
  rw [createPatch_eq, List.filter_cons, targetsMember_createVolumePatch, List.filter_cons,
    targetsMember_createInitContainerPatch, filter_flatMap]
  simp only [Bool.false_eq_true, if_false]
  refine flatMap_enumFrom_single
    (fun jx => (if "volumeMounts" = name then
        [createVolumeMountsPatch jx.2.VolumeMounts.isNone (jx.1 : Int)] else []) ++
      (if "env" = name then
        createEnvVariablesPatches (generateEnvironmentVariables config) jx.2.Env.isNone
          (jx.1 : Int) else [])) _ i ?_ _ 0 c (Nat.zero_le _) h
  intro j x
  simp only [List.filter_cons, targetsMember_createVolumeMountsPatch,
    filter_createEnvVariablesPatches]
  by_cases hj : j = i <;> by_cases h1 : "volumeMounts" = name <;>
    by_cases h2 : "env" = name <;> simp [hj, h1, h2]

/-! ## The patched pod -/

/-- The pod that results from applying the whole output of createPatch. -/
theorem applyPatch_createPatch (config : agentConfig) (spec : PodSpec) :
    applyPatch (createPatch config spec) spec =
      some
        { Volumes := some (spec.Volumes.getD [] ++ [agentVolume]),
          InitContainers := some (spec.InitContainers.getD [] ++ [agentInitContainer]),
          Containers := spec.Containers.map (List.map (fun c =>
            { c with
              VolumeMounts := some (c.VolumeMounts.getD [] ++ [volumeMounts]),
              Env := some (c.Env.getD [] ++ generateEnvironmentVariables config) })) } := by
  have hloop := createPatchLoop_eq (generateEnvironmentVariables config)
    (spec.Containers.getD []) 0
  simp only [Nat.cast_zero] at hloop
  simp only [createPatch, hloop, List.nil_append, List.singleton_append, List.cons_append,
    applyPatch]
  have hvol : applyOperation (createVolumePatch spec.Volumes.isNone) spec =
      some { spec with Volumes := some (spec.Volumes.getD [] ++ [agentVolume]) } := by
    cases hv : spec.Volumes <;>
      simp [createVolumePatch, applyOperation, parsePointer, splitSlash, addInSpec,
        addArrayMember, addToArray, PatchValue.asVolumeList, PatchValue.asVolume, hv]
  have hinit : ∀ s : PodSpec, s.InitContainers = spec.InitContainers →
      applyOperation (createInitContainerPatch spec.InitContainers.isNone) s =
        some { s with
          InitContainers := some (spec.InitContainers.getD [] ++ [agentInitContainer]) } := by
    intro s hs
    cases hv : spec.InitContainers <;>
      simp [createInitContainerPatch, applyOperation, parsePointer, splitSlash, addInSpec,
        addArrayMember, addToArray, PatchValue.asContainerList, PatchValue.asContainer, hv, hs]
  rw [hvol, Option.some_bind,
    hinit { spec with Volumes := some (spec.Volumes.getD [] ++ [agentVolume]) } rfl,
    Option.some_bind]
  cases hc : spec.Containers with
  | none => simp [applyPatch]
  | some cs =>
    have h := apply_containers (generateEnvironmentVariables config) cs []
      { Volumes := some (spec.Volumes.getD [] ++ [agentVolume]),
        InitContainers := some (spec.InitContainers.getD [] ++ [agentInitContainer]),
        Containers := some cs } rfl
    simp only [List.length_nil, List.nil_append] at h
    simp only [Option.getD_some, h, Option.map_some']
    rfl

/-! ## The claims -/

/-- C1: applying the operations of createPatch in order, with the "add" semantics of
RFC 6902, to the original pod succeeds and yields the pod whose volumes are the original
volumes (absent read as empty) followed by the agent volume, whose initContainers are the
original ones followed by the agent init container, and whose containers are the original
containers, in number and order, each with the agent volume mount after its volume mounts
and the sequence generateEnvironmentVariables(config) after its environment. -/
theorem createPatch_applied (config : agentConfig) (spec : PodSpec) :
    applyPatch (createPatch config spec) spec =
      some
        { Volumes := some (spec.Volumes.getD [] ++ [agentVolume]),
          InitContainers := some (spec.InitContainers.getD [] ++ [agentInitContainer]),
          Containers := spec.Containers.map (List.map (fun c =>
            { c with
              VolumeMounts := some (c.VolumeMounts.getD [] ++ [volumeMounts]),
              Env := some (c.Env.getD [] ++ generateEnvironmentVariables config) })) } :=
  applyPatch_createPatch config spec

/-- C2: applying the operations of createPatch one after another to the original pod never
fails. For every operation op of the output, with pre the operations before it: the
operations of pre apply to the original pod and give a document doc; op applies to doc;
if the pointer of op ends in the token "-" (append style) its parent resolves to an array
of doc; otherwise (create style) its parent resolves to an object of doc; and a container
index in the pointer is smaller than the number of containers of doc. -/
theorem createPatch_never_fails (config : agentConfig) (spec : PodSpec)
    (pre : List patchOperation) (op : patchOperation) (post : List patchOperation)
    (h : createPatch config spec = pre ++ op :: post) :
    (applyPatch (createPatch config spec) spec).isSome = true ∧
      ∃ doc tokens, applyPatch pre spec = some doc ∧ (applyOperation op doc).isSome = true ∧
        parsePointer op.Path = some tokens ∧ tokens ≠ [] ∧
        (tokens.getLast? = some "-" → ∃ n, resolve doc tokens.dropLast = some (Node.array n)) ∧
        (tokens.getLast? ≠ some "-" → resolve doc tokens.dropLast = some Node.object) ∧
        (∀ t rest, tokens = "spec" :: "containers" :: t :: rest →
          ∃ i, parseIndex t.data = some i ∧ i < (doc.Containers.getD []).length) := by
  have hall := applyPatch_createPatch config spec
  refine ⟨by rw [hall]; rfl, ?_⟩
  rw [h] at hall
  obtain ⟨doc, next, hdoc, hnext⟩ := applyPatch_split pre op post spec _ hall
  obtain ⟨tokens, node, htok, hne, hres, hfit⟩ := applyOperation_target op doc next hnext
  obtain ⟨tokens2, htok2, hshape⟩ := createPatch_tokens config spec op (by rw [h]; simp)
  have heq : tokens2 = tokens := Option.some.inj (htok2.symm.trans htok)
  subst heq
  refine ⟨doc, tokens2, hdoc, by rw [hnext]; rfl, htok, hne, ?_, ?_, ?_⟩
  · intro hl
    obtain ⟨n, hn⟩ := hfit.1 hl
    exact ⟨n, by rw [hres, hn]⟩
  · intro hl
    rcases hfit.2 with hobj | hdash | ⟨t, k, ht, hk⟩
    · rw [hres, hobj]
    · exact absurd hdash hl
    · exfalso
      rcases hshape with hs | hs | hs | hs | ⟨j, name, hname, hs | hs⟩
      · subst hs
        simp only [List.getLast?_cons_cons, List.getLast?_singleton, Option.some.injEq] at ht
        subst ht
        rw [parseIndex_member_names.1] at hk
        exact Option.noConfusion hk
      · subst hs
        exact hl (by simp)
      · subst hs
        simp only [List.getLast?_cons_cons, List.getLast?_singleton, Option.some.injEq] at ht
        subst ht
        rw [parseIndex_member_names.2.1] at hk
        exact Option.noConfusion hk
      · subst hs
        exact hl (by simp)
      · subst hs
        simp only [List.getLast?_cons_cons, List.getLast?_singleton, Option.some.injEq] at ht
        subst ht
        rcases hname with hn | hn
        · subst hn
          rw [parseIndex_member_names.2.2.1] at hk
          exact Option.noConfusion hk
        · subst hn
          rw [parseIndex_member_names.2.2.2] at hk
          exact Option.noConfusion hk
      · subst hs
        exact hl (by simp)
  · intro t rest ht
    rcases hshape with hs | hs | hs | hs | ⟨j, name, _, hs | hs⟩
    · subst hs; simp at ht
    · subst hs; simp at ht
    · subst hs; simp at ht
    · subst hs; simp at ht
    · subst hs
      simp only [List.cons.injEq, true_and] at ht
      obtain ⟨ht1, _⟩ := ht
      subst ht1
      exact resolve_container_index doc _ [] node hres
    · subst hs
      simp only [List.cons.injEq, true_and] at ht
      obtain ⟨ht1, _⟩ := ht
      subst ht1
      exact resolve_container_index doc _ [name] node hres

/-- The operation applied fourth to the populated pod of the second scenario: the first
append to the environment of container 0. -/
theorem createPatch_never_fails_witness :
    createPatch scenarioConfig populatedPod =
        [createVolumePatch false, createInitContainerPatch true,
          createVolumeMountsPatch true 0] ++
          { Op := "add", Path := "/spec/containers/0/env/-",
            Value := PatchValue.envVar secretTokenVar } ::
          [{ Op := "add", Path := "/spec/containers/0/env/-",
             Value := PatchValue.envVar
              { Name := "LOG_LEVEL", Value := "debug", ValueFrom := none } }] ∧
      ((applyPatch (createPatch scenarioConfig populatedPod) populatedPod).isSome = true ∧
        ∃ doc tokens,
          applyPatch [createVolumePatch false, createInitContainerPatch true,
            createVolumeMountsPatch true 0] populatedPod = some doc ∧
          (applyOperation
            { Op := "add", Path := "/spec/containers/0/env/-",
              Value := PatchValue.envVar secretTokenVar } doc).isSome = true ∧
          parsePointer "/spec/containers/0/env/-" = some tokens ∧ tokens ≠ [] ∧
          (tokens.getLast? = some "-" →
            ∃ n, resolve doc tokens.dropLast = some (Node.array n)) ∧
          (tokens.getLast? ≠ some "-" → resolve doc tokens.dropLast = some Node.object) ∧
          (∀ t rest, tokens = "spec" :: "containers" :: t :: rest →
            ∃ i, parseIndex t.data = some i ∧ i < (doc.Containers.getD []).length)) :=
  ⟨by decide,
    createPatch_never_fails scenarioConfig populatedPod
      [createVolumePatch false, createInitContainerPatch true, createVolumeMountsPatch true 0]
      { Op := "add", Path := "/spec/containers/0/env/-",
        Value := PatchValue.envVar secretTokenVar }
      [{ Op := "add", Path := "/spec/containers/0/env/-",
         Value := PatchValue.envVar { Name := "LOG_LEVEL", Value := "debug", ValueFrom := none } }]
      (by decide)⟩

/-- C3: createPatch returns the volume patch (created when volumes is absent), then the
init-container patch (created when initContainers is absent), then, for the containers in
increasing index order, the volume-mount patch of the container followed by its environment
patches, and nothing else. For the configuration LOG_LEVEL = debug and a pod with every
field absent and one container the result is the four create operations on /spec/volumes,
/spec/initContainers, /spec/containers/0/volumeMounts and /spec/containers/0/env. -/
theorem createPatch_emission_order (config : agentConfig) (spec : PodSpec)
    (name image : String) (command : Option (List String)) :
    createPatch config spec =
        [createVolumePatch spec.Volumes.isNone] ++
          [createInitContainerPatch spec.InitContainers.isNone] ++
          ((spec.Containers.getD []).enumFrom 0).flatMap (fun ic =>
            [createVolumeMountsPatch ic.2.VolumeMounts.isNone (ic.1 : Int)] ++
              createEnvVariablesPatches (generateEnvironmentVariables config)
                ic.2.Env.isNone (ic.1 : Int)) ∧
      createPatch { environment := [("LOG_LEVEL", "debug")] }
          { Volumes := none, InitContainers := none,
            Containers := some [{ Name := name, Image := image, Command := command,
                                  VolumeMounts := none, Env := none }] } =
        [{ Op := "add", Path := "/spec/volumes", Value := PatchValue.volumeList [agentVolume] },
         { Op := "add", Path := "/spec/initContainers",
           Value := PatchValue.containerList [agentInitContainer] },
         { Op := "add", Path := "/spec/containers/0/volumeMounts",
           Value := PatchValue.volumeMountList [volumeMounts] },
         { Op := "add", Path := "/spec/containers/0/env",
           Value := PatchValue.envVarList
            [secretTokenVar, { Name := "LOG_LEVEL", Value := "debug", ValueFrom := none }] }] := by
  constructor
  · rw [createPatch_eq]
    rfl
  · rfl

/-- C4: the first operation of createPatch is the volume patch. When volumes is absent it is
the add of a one-element array holding the agent volume (name elastic-apm-agent, empty
directory source) at /spec/volumes; when volumes is present, empty or not, it is the add
of the bare agent volume at the path /spec/volumes extended by the token "-". -/
theorem createPatch_volume_patch (config : agentConfig) (spec : PodSpec) :
    (createPatch config spec).head? =
        some (match spec.Volumes with
          | none =>
            { Op := "add", Path := "/spec/volumes",
              Value := PatchValue.volumeList
                [{ Name := "elastic-apm-agent",
                   VolumeSource := { EmptyDir := some { Medium := "" } } }] }
          | some _ =>
            { Op := "add", Path := "/spec/volumes/-",
              Value := PatchValue.volume
                { Name := "elastic-apm-agent",
                  VolumeSource := { EmptyDir := some { Medium := "" } } } }) ∧
      (createPatch config { spec with Volumes := some [] }).head? =
        some { Op := "add", Path := "/spec/volumes/-", Value := PatchValue.volume agentVolume } := by
  constructor
  · rw [createPatch_eq, List.head?_cons]
    cases spec.Volumes <;> rfl
  · rw [createPatch_eq, List.head?_cons]
    rfl

/-- C5: for both values of its argument createInitContainerPatch returns an add operation
carrying one container, named elastic-java-agent, with the image
docker.elastic.co/observability/apm-agent-java:1.23.0, the single agent mount and the
command cp -v /usr/agent/elastic-apm-agent.jar /elastic/apm/agent: as a one-element array
at /spec/initContainers when the argument is true, bare at that path extended by the token
"-" when it is false; createPatch passes true exactly when initContainers is absent, as its
second operation. -/
theorem createInitContainerPatch_value (config : agentConfig) (spec : PodSpec) :
    createInitContainerPatch true =
        { Op := "add", Path := "/spec/initContainers",
          Value := PatchValue.containerList
            [{ Name := "elastic-java-agent",
               Image := "docker.elastic.co/observability/apm-agent-java:1.23.0",
               Command := some ["cp", "-v", "/usr/agent/elastic-apm-agent.jar",
                 "/elastic/apm/agent"],
               VolumeMounts := some
                 [{ Name := "elastic-apm-agent", MountPath := "/elastic/apm/agent" }],
               Env := none }] } ∧
      createInitContainerPatch false =
        { Op := "add", Path := "/spec/initContainers/-",
          Value := PatchValue.container
            { Name := "elastic-java-agent",
              Image := "docker.elastic.co/observability/apm-agent-java:1.23.0",
              Command := some ["cp", "-v", "/usr/agent/elastic-apm-agent.jar",
                "/elastic/apm/agent"],
              VolumeMounts := some
                [{ Name := "elastic-apm-agent", MountPath := "/elastic/apm/agent" }],
              Env := none } } ∧
      (createPatch config spec)[1]? =
        some (match spec.InitContainers with
          | none => createInitContainerPatch true
          | some _ => createInitContainerPatch false) := by
  refine ⟨rfl, rfl, ?_⟩
  rw [createPatch_eq]
  cases spec.InitContainers <;> simp

/-- C6: for a container index i, written in decimal as Nat.repr i (digits only, no leading
zero, of value i), createVolumeMountsPatch with the create flag is the add of a one-element
array holding the agent volume mount at /spec/containers/i/volumeMounts, and without it
the add of the bare mount at that path extended by the token "-". For a container at
index i of the pod, the one operation of createPatch that targets its volumeMounts is the
create form when the field is absent and the append form when it is present. -/
theorem createVolumeMountsPatch_forms (config : agentConfig) (spec : PodSpec) (i : Nat)
    (c : Container) (h : (spec.Containers.getD [])[i]? = some c) :
    (∀ k : Nat,
      createVolumeMountsPatch true (k : Int) =
          { Op := "add", Path := "/spec/containers/" ++ Nat.repr k ++ "/volumeMounts",
            Value := PatchValue.volumeMountList
              [{ Name := "elastic-apm-agent", MountPath := "/elastic/apm/agent" }] } ∧
        createVolumeMountsPatch false (k : Int) =
          { Op := "add", Path := "/spec/containers/" ++ Nat.repr k ++ "/volumeMounts/-",
            Value := PatchValue.volumeMount
              { Name := "elastic-apm-agent", MountPath := "/elastic/apm/agent" } } ∧
        parseIndex (Nat.repr k).data = some k) ∧
      (createPatch config spec).filter (targetsMember "volumeMounts" i) =
        [match c.VolumeMounts with
          | none => createVolumeMountsPatch true (i : Int)
          | some _ => createVolumeMountsPatch false (i : Int)] ∧
      (createVolumeMountsPatch true (i : Int) ∈ createPatch config spec ↔
        c.VolumeMounts = none) := by
  have hfilter : (createPatch config spec).filter (targetsMember "volumeMounts" i) =
      [match c.VolumeMounts with
        | none => createVolumeMountsPatch true (i : Int)
        | some _ => createVolumeMountsPatch false (i : Int)] := by
    rw [filter_createPatch config spec "volumeMounts" i c h]
    cases c.VolumeMounts <;> simp
  refine ⟨?_, hfilter, ?_⟩
  · intro k
    refine ⟨rfl, ?_, parseIndex_repr k⟩
    simp only [createVolumeMountsPatch, Itoa_natCast, Bool.false_eq_true, if_false,
      String.append_assoc]
    rfl
  · have htarget : targetsMember "volumeMounts" i (createVolumeMountsPatch true (i : Int)) =
        true := by
      rw [targetsMember_createVolumeMountsPatch]
      simp
    constructor
    · intro hmem
      have hin : createVolumeMountsPatch true (i : Int) ∈
          (createPatch config spec).filter (targetsMember "volumeMounts" i) :=
        List.mem_filter.mpr ⟨hmem, htarget⟩
      rw [hfilter, List.mem_singleton] at hin
      cases hvm : c.VolumeMounts with
      | none => rfl
      | some ms =>
        rw [hvm] at hin
        have hv := congrArg patchOperation.Value hin
        simp [createVolumeMountsPatch] at hv
    · intro hnone
      have hin : createVolumeMountsPatch true (i : Int) ∈
          (createPatch config spec).filter (targetsMember "volumeMounts" i) := by
        rw [hfilter, hnone]
        simp
      exact (List.mem_filter.mp hin).1

/-- The container of the bare pod, at index 0, has no volume mounts: createPatch emits the
create form for it. -/
theorem createVolumeMountsPatch_forms_witness :
    (barePod.Containers.getD [])[0]? = some bareContainer ∧
      ((∀ k : Nat,
        createVolumeMountsPatch true (k : Int) =
            { Op := "add", Path := "/spec/containers/" ++ Nat.repr k ++ "/volumeMounts",
              Value := PatchValue.volumeMountList
                [{ Name := "elastic-apm-agent", MountPath := "/elastic/apm/agent" }] } ∧
          createVolumeMountsPatch false (k : Int) =
            { Op := "add", Path := "/spec/containers/" ++ Nat.repr k ++ "/volumeMounts/-",
              Value := PatchValue.volumeMount
                { Name := "elastic-apm-agent", MountPath := "/elastic/apm/agent" } } ∧
          parseIndex (Nat.repr k).data = some k) ∧
        (createPatch scenarioConfig barePod).filter (targetsMember "volumeMounts" 0) =
          [match bareContainer.VolumeMounts with
            | none => createVolumeMountsPatch true ((0 : Nat) : Int)
            | some _ => createVolumeMountsPatch false ((0 : Nat) : Int)] ∧
        (createVolumeMountsPatch true ((0 : Nat) : Int) ∈ createPatch scenarioConfig barePod ↔
          bareContainer.VolumeMounts = none)) :=
  ⟨by decide, createVolumeMountsPatch_forms scenarioConfig barePod 0 bareContainer (by decide)⟩

/-- C7: for a container at index i whose env field is absent, exactly one operation of
createPatch targets the env of that container: the add, at /spec/containers/i/env, of the
whole sequence generateEnvironmentVariables(config), which has 1 + |config.environment|
elements, the first being the secret-token reference. -/
theorem createPatch_env_absent (config : agentConfig) (spec : PodSpec) (i : Nat)
    (c : Container) (h : (spec.Containers.getD [])[i]? = some c) (henv : c.Env = none) :
    (createPatch config spec).filter (targetsMember "env" i) =
        [{ Op := "add", Path := "/spec/containers/" ++ Nat.repr i ++ "/env",
           Value := PatchValue.envVarList (generateEnvironmentVariables config) }] ∧
      parseIndex (Nat.repr i).data = some i ∧
      (generateEnvironmentVariables config).length = 1 + config.environment.length ∧
      (generateEnvironmentVariables config).head? =
        some { Name := "ELASTIC_APM_SECRET_TOKEN", Value := "",
               ValueFrom := some (EnvVarSource.mk (some
                 { LocalObjectReference := { Name := "apm-server-apm-token" },
                   Key := "secret-token" })) } := by
  refine ⟨?_, parseIndex_repr i, ?_, ?_⟩
  · rw [filter_createPatch config spec "env" i c h, henv]
    simp [createEnvVariablesPatches, Itoa_natCast]
  · rw [generateEnvironmentVariables_eq]
    simp [Nat.add_comm]
  · rw [generateEnvironmentVariables_eq]
    rfl

/-- The container of the bare pod, at index 0, has no env field. -/
theorem createPatch_env_absent_witness :
    (barePod.Containers.getD [])[0]? = some bareContainer ∧ bareContainer.Env = none ∧
      ((createPatch scenarioConfig barePod).filter (targetsMember "env" 0) =
          [{ Op := "add", Path := "/spec/containers/" ++ Nat.repr 0 ++ "/env",
             Value := PatchValue.envVarList (generateEnvironmentVariables scenarioConfig) }] ∧
        parseIndex (Nat.repr 0).data = some 0 ∧
        (generateEnvironmentVariables scenarioConfig).length =
          1 + scenarioConfig.environment.length ∧
        (generateEnvironmentVariables scenarioConfig).head? =
          some { Name := "ELASTIC_APM_SECRET_TOKEN", Value := "",
                 ValueFrom := some (EnvVarSource.mk (some
                   { LocalObjectReference := { Name := "apm-server-apm-token" },
                     Key := "secret-token" })) }) :=
  ⟨by decide, by decide,
    createPatch_env_absent scenarioConfig barePod 0 bareContainer (by decide) (by decide)⟩

/-- C8: for a container at index i whose env field is present, even as an empty array, the
operations of createPatch that target the env of that container are, in order, one add per
variable of generateEnvironmentVariables(config), each at the path /spec/containers/i/env
extended by the token "-" and each carrying that single variable; there are
1 + |config.environment| of them. For the configuration LOG_LEVEL = debug and a container
with one existing variable these are two separate append operations. -/
theorem createPatch_env_present (config : agentConfig) (spec : PodSpec) (i : Nat)
    (c : Container) (es : List EnvVar) (h : (spec.Containers.getD [])[i]? = some c)
    (henv : c.Env = some es) :
    (createPatch config spec).filter (targetsMember "env" i) =
        (generateEnvironmentVariables config).map (fun v =>
          { Op := "add", Path := "/spec/containers/" ++ Nat.repr i ++ "/env/-",
            Value := PatchValue.envVar v }) ∧
      parseIndex (Nat.repr i).data = some i ∧
      ((createPatch config spec).filter (targetsMember "env" i)).length =
        1 + config.environment.length ∧
      (createPatch scenarioConfig populatedPod).filter (targetsMember "env" 0) =
        [{ Op := "add", Path := "/spec/containers/0/env/-",
           Value := PatchValue.envVar secretTokenVar },
         { Op := "add", Path := "/spec/containers/0/env/-",
           Value := PatchValue.envVar
            { Name := "LOG_LEVEL", Value := "debug", ValueFrom := none } }] := by
  have hfilter : (createPatch config spec).filter (targetsMember "env" i) =
      (generateEnvironmentVariables config).map (fun v =>
        { Op := "add", Path := "/spec/containers/" ++ Nat.repr i ++ "/env/-",
          Value := PatchValue.envVar v }) := by
    rw [filter_createPatch config spec "env" i c h, henv]
    simp only [show ¬ ("volumeMounts" = "env") by decide, if_false, if_true, List.nil_append,
      Option.isNone_some, createEnvVariablesPatches_append, Itoa_natCast, String.append_assoc]
    rfl
  refine ⟨hfilter, parseIndex_repr i, ?_, by decide⟩
  rw [hfilter, List.length_map, generateEnvironmentVariables_eq]
  simp [Nat.add_comm]

/-- The container of the populated pod, at index 0, has one existing variable. -/
theorem createPatch_env_present_witness :
    (populatedPod.Containers.getD [])[0]? =
        some { bareContainer with Env := some [existingVar] } ∧
      ({ bareContainer with Env := some [existingVar] } : Container).Env = some [existingVar] ∧
      ((createPatch scenarioConfig populatedPod).filter (targetsMember "env" 0) =
          (generateEnvironmentVariables scenarioConfig).map (fun v =>
            { Op := "add", Path := "/spec/containers/" ++ Nat.repr 0 ++ "/env/-",
              Value := PatchValue.envVar v }) ∧
        parseIndex (Nat.repr 0).data = some 0 ∧
        ((createPatch scenarioConfig populatedPod).filter (targetsMember "env" 0)).length =
          1 + scenarioConfig.environment.length ∧
        (createPatch scenarioConfig populatedPod).filter (targetsMember "env" 0) =
          [{ Op := "add", Path := "/spec/containers/0/env/-",
             Value := PatchValue.envVar secretTokenVar },
           { Op := "add", Path := "/spec/containers/0/env/-",
             Value := PatchValue.envVar
              { Name := "LOG_LEVEL", Value := "debug", ValueFrom := none } }]) :=
  ⟨by decide, by decide,
    createPatch_env_present scenarioConfig populatedPod 0
      { bareContainer with Env := some [existingVar] } [existingVar] (by decide) (by decide)⟩

/-- C9: generateEnvironmentVariables(config) has 1 + |config.environment| elements. The
first is the variable ELASTIC_APM_SECRET_TOKEN, with no literal value and a reference to
the key secret-token of the secret apm-server-apm-token. The remaining elements are literal
name/value variables, one for each entry of config.environment and nothing else: read back
as name/value pairs they are the entries of the map. For an empty map the result is the
secret-token variable alone. -/
theorem generateEnvironmentVariables_contents (config : agentConfig) :
    (generateEnvironmentVariables config).length = 1 + config.environment.length ∧
      (generateEnvironmentVariables config).head? =
        some { Name := "ELASTIC_APM_SECRET_TOKEN", Value := "",
               ValueFrom := some (EnvVarSource.mk (some
                 { LocalObjectReference := { Name := "apm-server-apm-token" },
                   Key := "secret-token" })) } ∧
      (generateEnvironmentVariables config).tail =
        config.environment.map (fun entry =>
          { Name := entry.1, Value := entry.2, ValueFrom := none }) ∧
      (generateEnvironmentVariables config).tail.map (fun v => (v.Name, v.Value)) =
        config.environment ∧
      (∀ v ∈ (generateEnvironmentVariables config).tail, v.ValueFrom = none) ∧
      generateEnvironmentVariables { environment := [] } =
        [{ Name := "ELASTIC_APM_SECRET_TOKEN", Value := "",
           ValueFrom := some (EnvVarSource.mk (some
             { LocalObjectReference := { Name := "apm-server-apm-token" },
               Key := "secret-token" })) }] := by
  rw [generateEnvironmentVariables_eq]
  refine ⟨by simp [Nat.add_comm], rfl, rfl, ?_, ?_, rfl⟩
  · simp [List.map_map, Function.comp_def]
  · intro v hv
    simp only [List.tail_cons, List.mem_map] at hv
    obtain ⟨entry, _, hentry⟩ := hv
    rw [← hentry]

/-- C10, as stated, fails: the map holding A = 1 and B = 2 may be visited with B first;
generateEnvironmentVariables then lists B before A, which is not the order by name, and
differs from the result of an evaluation that visits A first, and so does createPatch. -/
theorem generateEnvironmentVariables_order_counterexample :
    sameMap [("A", "1"), ("B", "2")] [("B", "2"), ("A", "1")] ∧
      uniqueKeys [("B", "2"), ("A", "1")] ∧
      generateEnvironmentVariables { environment := [("B", "2"), ("A", "1")] } =
        [secretTokenVar, { Name := "B", Value := "2", ValueFrom := none },
          { Name := "A", Value := "1", ValueFrom := none }] ∧
      ¬ sortedByName
        ((generateEnvironmentVariables { environment := [("B", "2"), ("A", "1")] }).tail.map
          EnvVar.Name) ∧
      generateEnvironmentVariables { environment := [("A", "1"), ("B", "2")] } ≠
        generateEnvironmentVariables { environment := [("B", "2"), ("A", "1")] } ∧
      createPatch { environment := [("A", "1"), ("B", "2")] } barePod ≠
        createPatch { environment := [("B", "2"), ("A", "1")] } barePod := by
  refine ⟨?_, by decide, by decide, by decide, by decide, by decide⟩
  exact List.Perm.swap _ _ _

/-- C10, amended: generateEnvironmentVariables lists the configured variables, after the
secret-token variable, in the order in which the iteration over the map visits its entries.
Two evaluations over the same map return the secret-token variable first and then the same
configured variables, one list a permutation of the other; they return the same sequence
exactly when the map was visited in the same order, and then createPatch returns the same
operations; the configured variables come out sorted by name exactly when the iteration
visited them sorted by name. -/
theorem generateEnvironmentVariables_iteration_order (c1 c2 : agentConfig)
    (h : sameMap c1.environment c2.environment) :
    generateEnvironmentVariables c1 =
        secretTokenVar :: c1.environment.map (fun entry =>
          { Name := entry.1, Value := entry.2, ValueFrom := none }) ∧
      (generateEnvironmentVariables c1).head? = (generateEnvironmentVariables c2).head? ∧
      (generateEnvironmentVariables c1).tail.Perm (generateEnvironmentVariables c2).tail ∧
      (generateEnvironmentVariables c1 = generateEnvironmentVariables c2 ↔
        c1.environment = c2.environment) ∧
      (c1.environment = c2.environment → ∀ spec, createPatch c1 spec = createPatch c2 spec) ∧
      (sortedByName ((generateEnvironmentVariables c1).tail.map EnvVar.Name) ↔
        sortedByName (c1.environment.map Prod.fst)) := by
  have hinj : Function.Injective (fun entry : String × String =>
      ({ Name := entry.1, Value := entry.2, ValueFrom := none } : EnvVar)) := by
    intro a b hab
    simp only [EnvVar.mk.injEq, and_true] at hab
    exact Prod.ext hab.1 hab.2
  refine ⟨generateEnvironmentVariables_eq c1, ?_, ?_, ?_, ?_, ?_⟩
  · rw [generateEnvironmentVariables_eq, generateEnvironmentVariables_eq]
    rfl
  · rw [generateEnvironmentVariables_eq, generateEnvironmentVariables_eq]
    exact List.Perm.map _ h
  · rw [generateEnvironmentVariables_eq, generateEnvironmentVariables_eq]
    constructor
    · intro heq
      exact List.map_injective_iff.mpr hinj (List.cons.inj heq).2
    · intro heq
      rw [heq]
  · intro heq spec
    have : c1 = c2 := by
      cases c1; cases c2; simp_all
    rw [this]
  · rw [generateEnvironmentVariables_eq]
    simp [List.map_map, Function.comp_def]

/-- The map holding A = 1 and B = 2, visited in its two possible orders. -/
theorem generateEnvironmentVariables_iteration_order_witness :
    sameMap [("A", "1"), ("B", "2")] [("B", "2"), ("A", "1")] ∧
      (generateEnvironmentVariables { environment := [("A", "1"), ("B", "2")] }).tail.Perm
        (generateEnvironmentVariables { environment := [("B", "2"), ("A", "1")] }).tail :=
  ⟨List.Perm.swap _ _ _,
    (generateEnvironmentVariables_iteration_order { environment := [("A", "1"), ("B", "2")] }
      { environment := [("B", "2"), ("A", "1")] } (List.Perm.swap _ _ _)).2.2.1⟩

/-! ## Membership and length of the output -/

/-- Where an operation of the output of createPatch comes from. -/
theorem mem_createPatch (config : agentConfig) (spec : PodSpec) (op : patchOperation)
    (h : op ∈ createPatch config spec) :
    op = createVolumePatch spec.Volumes.isNone ∨
      op = createInitContainerPatch spec.InitContainers.isNone ∨
      ∃ (k : Nat) (c : Container), (spec.Containers.getD [])[k]? = some c ∧
        (op = createVolumeMountsPatch c.VolumeMounts.isNone (k : Int) ∨
          op ∈ createEnvVariablesPatches (generateEnvironmentVariables config)
            c.Env.isNone (k : Int)) := by
  rw [createPatch_eq] at h
  simp only [List.mem_cons, List.mem_flatMap] at h
  rcases h with h | h | ⟨⟨k, c⟩, hkc, h⟩
  · exact Or.inl h
  · exact Or.inr (Or.inl h)
  · have hk := (List.mk_mem_enumFrom_iff_le_and_getElem?_sub.mp hkc).2
    simp only [Nat.sub_zero] at hk
    exact Or.inr (Or.inr ⟨k, c, hk, h⟩)

theorem length_createEnvVariablesPatches (envVariables : List EnvVar) (b : Bool) (index : Int) :
    (createEnvVariablesPatches envVariables b index).length =
      if b then 1 else envVariables.length := by
  cases b
  · rw [createEnvVariablesPatches_append]
    simp
  · simp [createEnvVariablesPatches]

theorem length_flatMap_enumFrom {α β : Type} (f : Nat × α → List β) (g : α → Nat)
    (hfg : ∀ j x, (f (j, x)).length = g x) :
    ∀ (xs : List α) (n : Nat), ((xs.enumFrom n).flatMap f).length = (xs.map g).sum := by
  intro xs
  induction xs with
  | nil => intro n; rfl
  | cons x xs ih =>
    intro n
    simp [List.enumFrom_cons, List.flatMap_cons, hfg, ih (n + 1)]

/-- The number of operations of createPatch. -/
theorem length_createPatch (config : agentConfig) (spec : PodSpec) :
    (createPatch config spec).length =
      2 + ((spec.Containers.getD []).map (fun c =>
        1 + (match c.Env with
          | none => 1
          | some _ => 1 + config.environment.length))).sum := by
  rw [createPatch_eq, List.length_cons, List.length_cons,
    length_flatMap_enumFrom _ (fun c : Container =>
      1 + (match c.Env with
        | none => 1
        | some _ => 1 + config.environment.length))]
  · omega
  · intro j c
    rw [List.length_cons, length_createEnvVariablesPatches, generateEnvironmentVariables_eq]
    cases c.Env
    · simp
    · simp
      omega

/-- C11: the length of createPatch(config, spec) is 2 plus, for each container, 1 plus the
number of its environment operations, which is 1 when its env field is absent and
1 + |config.environment| when it is present. The length is the same for any other volumes,
initContainers and volumeMounts fields, absent or present. -/
theorem createPatch_length (config : agentConfig) (spec : PodSpec)
    (volumes : Option (List Volume)) (initContainers : Option (List Container))
    (mounts : Container → Option (List VolumeMount)) :
    (createPatch config spec).length =
        2 + ((spec.Containers.getD []).map (fun c =>
          1 + (match c.Env with
            | none => 1
            | some _ => 1 + config.environment.length))).sum ∧
      (createPatch config
          { Volumes := volumes, InitContainers := initContainers,
            Containers := spec.Containers.map
              (List.map (fun c => { c with VolumeMounts := mounts c })) }).length =
        (createPatch config spec).length := by
  refine ⟨length_createPatch config spec, ?_⟩
  rw [length_createPatch, length_createPatch]
  cases spec.Containers with
  | none => rfl
  | some cs => simp [List.map_map, Function.comp_def]

/-- C15: createPatch returns at least two operations: the first is the volume patch, the
second the init-container patch. For a pod without containers, the list nil or empty, it
returns exactly those two. It never returns the empty sequence. -/
theorem createPatch_unconditional (config : agentConfig) (spec : PodSpec) :
    2 ≤ (createPatch config spec).length ∧
      (createPatch config spec)[0]? = some (createVolumePatch spec.Volumes.isNone) ∧
      (createPatch config spec)[1]? =
        some (createInitContainerPatch spec.InitContainers.isNone) ∧
      createPatch config { spec with Containers := none } =
        [createVolumePatch spec.Volumes.isNone,
          createInitContainerPatch spec.InitContainers.isNone] ∧
      createPatch config { spec with Containers := some [] } =
        [createVolumePatch spec.Volumes.isNone,
          createInitContainerPatch spec.InitContainers.isNone] ∧
      createPatch config spec ≠ [] := by
  refine ⟨?_, ?_, ?_, rfl, rfl, ?_⟩
  · rw [length_createPatch]
    omega
  · rw [createPatch_eq]
    rfl
  · rw [createPatch_eq]
    simp
  · rw [createPatch_eq]
    exact List.cons_ne_nil _ _

/-- C12: every operation of createPatch(config, spec) has the op "add", a path that starts
with /spec/ and a value that is not empty: a single object or an array with at least one
element. No remove, replace, move, copy or test operation is produced. -/
theorem createPatch_only_add (config : agentConfig) (spec : PodSpec) (op : patchOperation)
    (h : op ∈ createPatch config spec) :
    op.Op = "add" ∧ (∃ rest : String, op.Path = "/spec/" ++ rest) ∧
      op.Value.isEmpty = false ∧
      op.Op ≠ "remove" ∧ op.Op ≠ "replace" ∧ op.Op ≠ "move" ∧ op.Op ≠ "copy" ∧
      op.Op ≠ "test" := by
  have hmain : op.Op = "add" ∧ (∃ rest : String, op.Path = "/spec/" ++ rest) ∧
      op.Value.isEmpty = false := by
    rcases mem_createPatch config spec op h with h | h | ⟨k, c, _, h | h⟩
    · subst h
      cases spec.Volumes
      · exact ⟨rfl, ⟨"volumes", rfl⟩, rfl⟩
      · exact ⟨rfl, ⟨"volumes/-", rfl⟩, rfl⟩
    · subst h
      cases spec.InitContainers
      · exact ⟨rfl, ⟨"initContainers", rfl⟩, rfl⟩
      · exact ⟨rfl, ⟨"initContainers/-", rfl⟩, rfl⟩
    · subst h
      cases c.VolumeMounts
      · refine ⟨rfl, ⟨"containers/" ++ strconv.Itoa (k : Int) ++ "/volumeMounts", ?_⟩, rfl⟩
        simp only [createVolumeMountsPatch, Option.isNone_none, if_true, ← String.append_assoc]
        rfl
      · refine ⟨rfl,
          ⟨"containers/" ++ strconv.Itoa (k : Int) ++ "/volumeMounts" ++ "/-", ?_⟩, rfl⟩
        simp only [createVolumeMountsPatch, Option.isNone_some, Bool.false_eq_true, if_false,
          ← String.append_assoc]
        rfl
    · cases he : c.Env with
      | none =>
        simp only [he, Option.isNone_none, createEnvVariablesPatches, if_true,
          List.mem_singleton] at h
        subst h
        refine ⟨rfl, ⟨"containers/" ++ strconv.Itoa (k : Int) ++ "/env", ?_⟩, ?_⟩
        · simp only [← String.append_assoc]
          rfl
        · simp [PatchValue.isEmpty, generateEnvironmentVariables_eq]
      | some es =>
        simp only [he, Option.isNone_some, createEnvVariablesPatches_append,
          List.mem_map] at h
        obtain ⟨v, _, hv⟩ := h
        subst hv
        refine ⟨rfl, ⟨"containers/" ++ strconv.Itoa (k : Int) ++ "/env" ++ "/-", ?_⟩, rfl⟩
        simp only [← String.append_assoc]
        rfl
  obtain ⟨hop, hpath, hval⟩ := hmain
  refine ⟨hop, hpath, hval, ?_, ?_, ?_, ?_, ?_⟩ <;> rw [hop] <;> decide

/-- The first environment append emitted for the populated pod. -/
theorem createPatch_only_add_witness :
    ({ Op := "add", Path := "/spec/containers/0/env/-",
       Value := PatchValue.envVar secretTokenVar } : patchOperation) ∈
        createPatch scenarioConfig populatedPod ∧
      (("add" : String) = "add" ∧
        (∃ rest : String, ("/spec/containers/0/env/-" : String) = "/spec/" ++ rest) ∧
        (PatchValue.envVar secretTokenVar).isEmpty = false ∧
        ("add" : String) ≠ "remove" ∧ ("add" : String) ≠ "replace" ∧
        ("add" : String) ≠ "move" ∧ ("add" : String) ≠ "copy" ∧ ("add" : String) ≠ "test") :=
  ⟨by decide,
    createPatch_only_add scenarioConfig populatedPod
      { Op := "add", Path := "/spec/containers/0/env/-",
        Value := PatchValue.envVar secretTokenVar } (by decide)⟩

/-! ## Uniqueness of the injected entries -/

/-- The names of the generated variables: the secret-token name, then the keys of the map. -/
theorem generateEnvironmentVariables_names (config : agentConfig) :
    (generateEnvironmentVariables config).map EnvVar.Name =
      "ELASTIC_APM_SECRET_TOKEN" :: config.environment.map Prod.fst := by
  rw [generateEnvironmentVariables_eq]
  simp [List.map_map, Function.comp_def, secretTokenVar]

/-- C13, as stated, fails: the pod that already has a volume named elastic-apm-agent and a
container that sets LOG_LEVEL has, after the patch for the configuration LOG_LEVEL = debug
is applied, two volumes of that name and two variables LOG_LEVEL in that container. -/
theorem createPatch_exactly_one_counterexample :
    (applyPatch (createPatch scenarioConfig occupiedPod) occupiedPod).map agentVolumeCount =
        some 2 ∧
      (applyPatch (createPatch scenarioConfig occupiedPod) occupiedPod).map
          (fun p => (p.Containers.getD []).map (envNameCount "LOG_LEVEL")) = some [2] ∧
      ¬ ∃ p, applyPatch (createPatch scenarioConfig occupiedPod) occupiedPod = some p ∧
        agentVolumeCount p = 1 := by
  refine ⟨by decide, by decide, ?_⟩
  rintro ⟨p, hp, hcount⟩
  have h2 : (applyPatch (createPatch scenarioConfig occupiedPod) occupiedPod).map
      agentVolumeCount = some 2 := by decide
  rw [hp, Option.map_some', hcount] at h2
  exact absurd h2 (by decide)

/-- C13, amended: when the original pod has no volume named elastic-apm-agent, no init
container named elastic-java-agent and no container whose env already holds a name that
the patch injects, and the configuration (a map, so with distinct keys) has no entry named
ELASTIC_APM_SECRET_TOKEN, then after the operations of createPatch are applied there is
exactly one volume named elastic-apm-agent, exactly one init container named
elastic-java-agent, and in the env of every container each injected name occurs exactly
once. -/
theorem createPatch_exactly_one (config : agentConfig) (spec : PodSpec)
    (hvol : agentVolumeCount spec = 0) (hinit : agentInitContainerCount spec = 0)
    (hkeys : uniqueKeys config.environment)
    (hsecret : "ELASTIC_APM_SECRET_TOKEN" ∉ config.environment.map Prod.fst)
    (henv : ∀ c ∈ spec.Containers.getD [], ∀ v ∈ generateEnvironmentVariables config,
      envNameCount v.Name c = 0) :
    ∃ p, applyPatch (createPatch config spec) spec = some p ∧
      agentVolumeCount p = 1 ∧ agentInitContainerCount p = 1 ∧
      ∀ c ∈ p.Containers.getD [], ∀ v ∈ generateEnvironmentVariables config,
        envNameCount v.Name c = 1 := by
  refine ⟨_, applyPatch_createPatch config spec, ?_, ?_, ?_⟩
  · unfold agentVolumeCount at hvol ⊢
    simp only [Option.getD_some, List.map_append, List.count_append, hvol]
    rfl
  · unfold agentInitContainerCount at hinit ⊢
    simp only [Option.getD_some, List.map_append, List.count_append, hinit]
    rfl
  · intro c hc v hv
    have hnodup : ((generateEnvironmentVariables config).map EnvVar.Name).Nodup := by
      rw [generateEnvironmentVariables_names]
      exact List.nodup_cons.mpr ⟨hsecret, hkeys⟩
    have hone : ((generateEnvironmentVariables config).map EnvVar.Name).count v.Name = 1 :=
      List.count_eq_one_of_mem hnodup (List.mem_map_of_mem _ hv)
    cases hcs : spec.Containers with
    | none => simp [hcs] at hc
    | some cs =>
      simp only [hcs, Option.map_some', Option.getD_some, List.mem_map] at hc
      obtain ⟨c0, hc0, hcc⟩ := hc
      have hzero := henv c0 (by simp [hcs, hc0]) v hv
      unfold envNameCount at hzero ⊢
      rw [← hcc]
      simp only [Option.getD_some, List.map_append, List.count_append, hzero, hone]

/-- The bare pod and the configuration LOG_LEVEL = debug meet the conditions. -/
theorem createPatch_exactly_one_witness :
    agentVolumeCount barePod = 0 ∧ agentInitContainerCount barePod = 0 ∧
      uniqueKeys scenarioConfig.environment ∧
      "ELASTIC_APM_SECRET_TOKEN" ∉ scenarioConfig.environment.map Prod.fst ∧
      (∀ c ∈ barePod.Containers.getD [], ∀ v ∈ generateEnvironmentVariables scenarioConfig,
        envNameCount v.Name c = 0) ∧
      ∃ p, applyPatch (createPatch scenarioConfig barePod) barePod = some p ∧
        agentVolumeCount p = 1 ∧ agentInitContainerCount p = 1 ∧
        ∀ c ∈ p.Containers.getD [], ∀ v ∈ generateEnvironmentVariables scenarioConfig,
          envNameCount v.Name c = 1 :=
  ⟨by decide, by decide, by decide, by decide, by decide,
    createPatch_exactly_one scenarioConfig barePod (by decide) (by decide) (by decide)
      (by decide) (by decide)⟩

/-! ## Applying the same operations a second time -/

theorem apply_createVolumeMountsPatch_create (spec : PodSpec) (cs : List Container)
    (c : Container) (k : Nat) (hcs : spec.Containers = some cs) (hk : cs[k]? = some c) :
    applyOperation (createVolumeMountsPatch true (k : Int)) spec =
      some { spec with
        Containers := some (cs.set k { c with VolumeMounts := some [volumeMounts] }) } := by
  simp [createVolumeMountsPatch, applyOperation, Itoa_natCast, parsePointer_volumeMounts,
    addInSpec, addArrayMember, parseIndex_repr, hcs, hk, addInContainer,
    PatchValue.asVolumeMountList]

theorem apply_createVolumeMountsPatch_append (spec : PodSpec) (cs : List Container)
    (c : Container) (k : Nat) (ms : List VolumeMount) (hcs : spec.Containers = some cs)
    (hk : cs[k]? = some c) (hms : c.VolumeMounts = some ms) :
    applyOperation (createVolumeMountsPatch false (k : Int)) spec =
      some { spec with
        Containers := some (cs.set k { c with VolumeMounts := some (ms ++ [volumeMounts]) }) } := by
  simp [createVolumeMountsPatch, applyOperation, Itoa_natCast,
    parsePointer_volumeMounts_append, addInSpec, addArrayMember, parseIndex_repr, hcs, hk,
    addInContainer, PatchValue.asVolumeMount, addToArray, hms]

/-- Applying the operations computed from a container to the document in which that
container has already been injected. -/
theorem reapply_containerPatches (envVariables : List EnvVar) (spec : PodSpec)
    (cs : List Container) (o : Container) (k : Nat) (hcs : spec.Containers = some cs)
    (hk : cs[k]? = some (injectedContainer envVariables o)) :
    applyPatch (createVolumeMountsPatch o.VolumeMounts.isNone (k : Int) ::
        createEnvVariablesPatches envVariables o.Env.isNone (k : Int)) spec =
      some { spec with Containers := some (cs.set k (reappliedContainer envVariables o)) } := by
  cases hvm : o.VolumeMounts with
  | none =>
    rw [Option.isNone_none, applyPatch,
      apply_createVolumeMountsPatch_create spec cs _ k hcs hk, Option.some_bind]
    cases he : o.Env with
    | none =>
      rw [Option.isNone_none, apply_createEnvVariablesPatches_create envVariables _ _ _ k rfl
        (getElem?_set_of_getElem? cs k _ _ hk)]
      simp [List.set_set, injectedContainer, reappliedContainer, hvm, he]
    | some es =>
      rw [Option.isNone_some, apply_createEnvVariablesPatches_append envVariables _ _ _ k
        (es ++ envVariables) rfl (getElem?_set_of_getElem? cs k _ _ hk)
        (by simp [injectedContainer, he])]
      simp [List.set_set, injectedContainer, reappliedContainer, hvm, he]
  | some ms =>
    rw [Option.isNone_some, applyPatch,
      apply_createVolumeMountsPatch_append spec cs _ k (ms ++ [volumeMounts]) hcs hk
        (by simp [injectedContainer, hvm]), Option.some_bind]
    cases he : o.Env with
    | none =>
      rw [Option.isNone_none, apply_createEnvVariablesPatches_create envVariables _ _ _ k rfl
        (getElem?_set_of_getElem? cs k _ _ hk)]
      simp [List.set_set, injectedContainer, reappliedContainer, hvm, he]
    | some es =>
      rw [Option.isNone_some, apply_createEnvVariablesPatches_append envVariables _ _ _ k
        (es ++ envVariables) rfl (getElem?_set_of_getElem? cs k _ _ hk)
        (by simp [injectedContainer, he])]
      simp [List.set_set, injectedContainer, reappliedContainer, hvm, he]

theorem reapply_containers (envVariables : List EnvVar) :
    ∀ (rest done : List Container) (spec : PodSpec),
      spec.Containers = some (done ++ rest.map (injectedContainer envVariables)) →
      applyPatch ((rest.enumFrom done.length).flatMap (fun ic =>
        createVolumeMountsPatch ic.2.VolumeMounts.isNone (ic.1 : Int) ::
          createEnvVariablesPatches envVariables ic.2.Env.isNone (ic.1 : Int))) spec =
      some { spec with
        Containers := some (done ++ rest.map (reappliedContainer envVariables)) } := by
  intro rest
  induction rest with
  | nil =>
    intro done spec hcs
    simp only [List.enumFrom_nil, List.flatMap_nil, applyPatch, List.map_nil]
    rw [← List.map_nil, ← hcs]
  | cons o rest ih =>
    intro done spec hcs
    rw [List.map_cons] at hcs
    have hk : (done ++ injectedContainer envVariables o ::
        rest.map (injectedContainer envVariables))[done.length]? =
          some (injectedContainer envVariables o) := by
      rw [List.getElem?_append_right (Nat.le_refl _)]
      simp
    have hblock := reapply_containerPatches envVariables spec _ o done.length hcs hk
    have hset : (done ++ injectedContainer envVariables o ::
        rest.map (injectedContainer envVariables)).set done.length
          (reappliedContainer envVariables o) =
        (done ++ [reappliedContainer envVariables o]) ++
          rest.map (injectedContainer envVariables) := by simp
    rw [hset] at hblock
    have hrest := ih (done ++ [reappliedContainer envVariables o])
      { spec with
        Containers := some ((done ++ [reappliedContainer envVariables o]) ++
          rest.map (injectedContainer envVariables)) } rfl
    simp only [List.length_append, List.length_singleton] at hrest
    simp only [List.enumFrom_cons, List.flatMap_cons, applyPatch_append, hblock,
      Option.some_bind, hrest]
    simp

/-- The pod that results from applying the output of createPatch twice to the pod it was
computed from. -/
theorem applyPatch_createPatch_twice (config : agentConfig) (spec : PodSpec) :
    (applyPatch (createPatch config spec) spec).bind (applyPatch (createPatch config spec)) =
      some
        { Volumes := some (match spec.Volumes with
            | none => [agentVolume]
            | some vs => vs ++ [agentVolume, agentVolume]),
          InitContainers := some (match spec.InitContainers with
            | none => [agentInitContainer]
            | some cs => cs ++ [agentInitContainer, agentInitContainer]),
          Containers := spec.Containers.map
            (List.map (reappliedContainer (generateEnvironmentVariables config))) } := by
  rw [applyPatch_createPatch, Option.some_bind, createPatch_eq]
  simp only [applyPatch]
  have hvol : ∀ s : PodSpec, s.Volumes = some (spec.Volumes.getD [] ++ [agentVolume]) →
      applyOperation (createVolumePatch spec.Volumes.isNone) s =
        some { s with Volumes := some (match spec.Volumes with
          | none => [agentVolume]
          | some vs => vs ++ [agentVolume, agentVolume]) } := by
    intro s hs
    cases hv : spec.Volumes <;>
      simp [createVolumePatch, applyOperation, parsePointer, splitSlash, addInSpec,
        addArrayMember, addToArray, PatchValue.asVolumeList, PatchValue.asVolume, hv, hs]
  have hinit : ∀ s : PodSpec,
      s.InitContainers = some (spec.InitContainers.getD [] ++ [agentInitContainer]) →
      applyOperation (createInitContainerPatch spec.InitContainers.isNone) s =
        some { s with InitContainers := some (match spec.InitContainers with
          | none => [agentInitContainer]
          | some cs => cs ++ [agentInitContainer, agentInitContainer]) } := by
    intro s hs
    cases hv : spec.InitContainers <;>
      simp [createInitContainerPatch, applyOperation, parsePointer, splitSlash, addInSpec,
        addArrayMember, addToArray, PatchValue.asContainerList, PatchValue.asContainer, hv, hs]
  rw [hvol _ rfl, Option.some_bind, hinit _ rfl, Option.some_bind]
  cases hc : spec.Containers with
  | none => simp [applyPatch]
  | some cs =>
    have h := reapply_containers (generateEnvironmentVariables config) cs []
      { Volumes := some (match spec.Volumes with
          | none => [agentVolume]
          | some vs => vs ++ [agentVolume, agentVolume]),
        InitContainers := some (match spec.InitContainers with
          | none => [agentInitContainer]
          | some cs => cs ++ [agentInitContainer, agentInitContainer]),
        Containers := some (cs.map (injectedContainer (generateEnvironmentVariables config))) }
      rfl
    simp only [List.length_nil, List.nil_append] at h
    simp only [Option.getD_some, Option.map_some']
    exact h

/-- C14, as stated, fails: for the bare pod, which has one container and every field
absent, every operation is a create operation; applying the list a second time sets the
same arrays again, the result is the pod of the first application, and the agent volume,
the agent init container, the agent mount and each injected variable occur once. -/
theorem createPatch_twice_counterexample :
    (barePod.Containers.getD []).length = 1 ∧
      (applyPatch (createPatch scenarioConfig barePod) barePod).bind
          (applyPatch (createPatch scenarioConfig barePod)) =
        applyPatch (createPatch scenarioConfig barePod) barePod ∧
      (applyPatch (createPatch scenarioConfig barePod) barePod).bind
          (applyPatch (createPatch scenarioConfig barePod)) =
        some
          { Volumes := some [agentVolume],
            InitContainers := some [agentInitContainer],
            Containers := some [{ bareContainer with
              VolumeMounts := some [volumeMounts],
              Env := some [secretTokenVar,
                { Name := "LOG_LEVEL", Value := "debug", ValueFrom := none }] }] } ∧
      ((applyPatch (createPatch scenarioConfig barePod) barePod).bind
          (applyPatch (createPatch scenarioConfig barePod))).map
          (fun p => (p.Volumes.getD []).count agentVolume) = some 1 := by
  decide

/-- C14, amended: applying the operation list createPatch(config, spec) to the pod and
then the same list a second time succeeds. Where a field was present in the original pod
the operation appends, and the agent entry follows the original entries twice (the agent
volume, the agent init container, the agent volume mount, and the whole sequence of
injected variables). Where a field was absent the operation creates the array, the second
application sets it again, and the agent entry occurs once. So for a pod in which all
these fields are present everything injected is duplicated. -/
theorem createPatch_twice (config : agentConfig) (spec : PodSpec) :
    (applyPatch (createPatch config spec) spec).bind (applyPatch (createPatch config spec)) =
      some
        { Volumes := some (match spec.Volumes with
            | none => [agentVolume]
            | some vs => vs ++ [agentVolume, agentVolume]),
          InitContainers := some (match spec.InitContainers with
            | none => [agentInitContainer]
            | some cs => cs ++ [agentInitContainer, agentInitContainer]),
          Containers := spec.Containers.map (List.map (fun c =>
            { c with
              VolumeMounts := some (match c.VolumeMounts with
                | none => [volumeMounts]
                | some ms => ms ++ [volumeMounts, volumeMounts]),
              Env := some (match c.Env with
                | none => generateEnvironmentVariables config
                | some es => es ++ generateEnvironmentVariables config ++
                    generateEnvironmentVariables config) })) } :=
  applyPatch_createPatch_twice config spec

/-! ## A second admission of the patched pod -/

/-- C16, as stated, fails: a pod that already holds agent entries has more than two of
them after the second admission. The occupied pod, which has a volume named
elastic-apm-agent and a variable LOG_LEVEL, ends with three volumes of that name and three
variables LOG_LEVEL; the pod that has already been injected once ends with three copies of
the agent volume, of the agent init container, of the agent volume mount and of each
generated variable. -/
theorem createPatch_reinjection_counterexample :
    ((applyPatch (createPatch scenarioConfig occupiedPod) occupiedPod).bind
        (fun p1 => applyPatch (createPatch scenarioConfig p1) p1)).map agentVolumeCount =
        some 3 ∧
      ((applyPatch (createPatch scenarioConfig occupiedPod) occupiedPod).bind
        (fun p1 => applyPatch (createPatch scenarioConfig p1) p1)).map
          (fun p2 => (p2.Containers.getD []).map (envNameCount "LOG_LEVEL")) = some [3] ∧
      applyPatch (createPatch scenarioConfig barePod) barePod = some injectedPod ∧
      ((applyPatch (createPatch scenarioConfig injectedPod) injectedPod).bind
        (fun p1 => applyPatch (createPatch scenarioConfig p1) p1)).map
          (fun p2 => ((p2.Volumes.getD []).count agentVolume,
            (p2.InitContainers.getD []).count agentInitContainer,
            (p2.Containers.getD []).map (fun c => (c.VolumeMounts.getD []).count volumeMounts),
            (p2.Containers.getD []).map (fun c => (c.Env.getD []).count secretTokenVar))) =
        some (3, 3, [3], [3]) := by
  decide

/-- C16, amended: let p1 be the pod obtained by applying createPatch(config, p0) to p0, and
let a second admission evaluate createPatch on p1 with the same configuration map, visited
in any order. Every operation of that second output is append style: its path ends in the
token "-" and its value is a single object, not an array. Applied to p1 it yields the pod
whose volumes are those of p0 followed by two agent volumes, whose init containers are
those of p0 followed by two agent init containers, and in which every container has its
volume mounts followed by two agent volume mounts and its env followed by the generated
variables twice: the two appended sequences together hold every variable of
generateEnvironmentVariables(config) twice as often as that sequence does. The pod then
has two more volumes named elastic-apm-agent and two more init containers named
elastic-java-agent than p0 had, so exactly two of each when p0 had none. -/
theorem createPatch_reinjection (config config2 : agentConfig) (p0 : PodSpec)
    (h : sameMap config.environment config2.environment) :
    ∃ p1, applyPatch (createPatch config p0) p0 = some p1 ∧
      (∀ op ∈ createPatch config2 p1,
        (∃ parent : String, op.Path = parent ++ "/-") ∧ op.Value.isArray = false) ∧
      applyPatch (createPatch config2 p1) p1 =
        some
          { Volumes := some (p0.Volumes.getD [] ++ [agentVolume, agentVolume]),
            InitContainers :=
              some (p0.InitContainers.getD [] ++ [agentInitContainer, agentInitContainer]),
            Containers := p0.Containers.map (List.map (fun c =>
              { c with
                VolumeMounts := some (c.VolumeMounts.getD [] ++ [volumeMounts, volumeMounts]),
                Env := some (c.Env.getD [] ++ generateEnvironmentVariables config ++
                  generateEnvironmentVariables config2) })) } ∧
      (∀ v, (generateEnvironmentVariables config ++ generateEnvironmentVariables config2).count v =
        2 * (generateEnvironmentVariables config).count v) ∧
      (applyPatch (createPatch config2 p1) p1).map agentVolumeCount =
        some (agentVolumeCount p0 + 2) ∧
      (applyPatch (createPatch config2 p1) p1).map agentInitContainerCount =
        some (agentInitContainerCount p0 + 2) := by
  refine ⟨_, applyPatch_createPatch config p0, ?_, ?_, ?_, ?_, ?_⟩
  · intro op hop
    rcases mem_createPatch _ _ op hop with hop | hop | ⟨k, c, hk, hop | hop⟩
    · subst hop
      exact ⟨⟨"/spec/volumes", rfl⟩, rfl⟩
    · subst hop
      exact ⟨⟨"/spec/initContainers", rfl⟩, rfl⟩
    · have hc : c.VolumeMounts.isNone = false := by
        cases hcs : p0.Containers with
        | none => simp [hcs] at hk
        | some cs =>
          simp only [hcs, Option.map_some', Option.getD_some, List.getElem?_map,
            Option.map_eq_some'] at hk
          obtain ⟨c0, _, hc0⟩ := hk
          rw [← hc0]
          rfl
      subst hop
      rw [hc]
      exact ⟨⟨_, rfl⟩, rfl⟩
    · have hc : c.Env.isNone = false := by
        cases hcs : p0.Containers with
        | none => simp [hcs] at hk
        | some cs =>
          simp only [hcs, Option.map_some', Option.getD_some, List.getElem?_map,
            Option.map_eq_some'] at hk
          obtain ⟨c0, _, hc0⟩ := hk
          rw [← hc0]
          rfl
      rw [hc, createEnvVariablesPatches_append, List.mem_map] at hop
      obtain ⟨v, _, hv⟩ := hop
      subst hv
      exact ⟨⟨_, rfl⟩, rfl⟩
  · rw [applyPatch_createPatch]
    cases p0.Containers <;>
      simp [List.map_map, Function.comp_def, List.append_assoc]
  · intro v
    have hperm : (generateEnvironmentVariables config2).Perm
        (generateEnvironmentVariables config) := by
      rw [generateEnvironmentVariables_eq, generateEnvironmentVariables_eq]
      exact (List.Perm.map _ h.symm).cons _
    rw [List.count_append, hperm.count_eq]
    omega
  · rw [applyPatch_createPatch, Option.map_some']
    unfold agentVolumeCount
    simp only [Option.getD_some, List.map_append, List.count_append]
    rfl
  · rw [applyPatch_createPatch, Option.map_some']
    unfold agentInitContainerCount
    simp only [Option.getD_some, List.map_append, List.count_append]
    rfl

/-- The bare pod, admitted twice with the map holding A = 1 and B = 2 visited in its two
orders. -/
theorem createPatch_reinjection_witness :
    sameMap [("A", "1"), ("B", "2")] [("B", "2"), ("A", "1")] ∧
      ∃ p1, applyPatch (createPatch { environment := [("A", "1"), ("B", "2")] } barePod)
          barePod = some p1 ∧
        (∀ op ∈ createPatch { environment := [("B", "2"), ("A", "1")] } p1,
          (∃ parent : String, op.Path = parent ++ "/-") ∧ op.Value.isArray = false) ∧
        applyPatch (createPatch { environment := [("B", "2"), ("A", "1")] } p1) p1 =
          some
            { Volumes := some (barePod.Volumes.getD [] ++ [agentVolume, agentVolume]),
              InitContainers := some
                (barePod.InitContainers.getD [] ++ [agentInitContainer, agentInitContainer]),
              Containers := barePod.Containers.map (List.map (fun c =>
                { c with
                  VolumeMounts :=
                    some (c.VolumeMounts.getD [] ++ [volumeMounts, volumeMounts]),
                  Env := some (c.Env.getD [] ++
                    generateEnvironmentVariables { environment := [("A", "1"), ("B", "2")] } ++
                    generateEnvironmentVariables
                      { environment := [("B", "2"), ("A", "1")] }) })) } ∧
        (∀ v,
          (generateEnvironmentVariables { environment := [("A", "1"), ("B", "2")] } ++
            generateEnvironmentVariables { environment := [("B", "2"), ("A", "1")] }).count v =
          2 * (generateEnvironmentVariables
            { environment := [("A", "1"), ("B", "2")] }).count v) ∧
        (applyPatch (createPatch { environment := [("B", "2"), ("A", "1")] } p1) p1).map
            agentVolumeCount = some (agentVolumeCount barePod + 2) ∧
        (applyPatch (createPatch { environment := [("B", "2"), ("A", "1")] } p1) p1).map
            agentInitContainerCount = some (agentInitContainerCount barePod + 2) :=
  ⟨List.Perm.swap _ _ _,
    createPatch_reinjection { environment := [("A", "1"), ("B", "2")] }
      { environment := [("B", "2"), ("A", "1")] } barePod (List.Perm.swap _ _ _)⟩

/-! ## The operations computed from one container -/

theorem targetsMember_congr (name : String) (i : Nat) (op op2 : patchOperation)
    (h : op.Path = op2.Path) : targetsMember name i op = targetsMember name i op2 := by
  unfold targetsMember
  rw [h]

theorem targetsMember_of_mem_createEnvVariablesPatches (envVariables : List EnvVar)
    (name : String) (i j : Nat) (b : Bool) (op : patchOperation)
    (hop : op ∈ createEnvVariablesPatches envVariables b (j : Int)) :
    targetsMember name i op = ((j == i) && ("env" == name)) := by
  cases b
  · simp only [createEnvVariablesPatches_append, List.mem_map] at hop
    obtain ⟨v, _, hv⟩ := hop
    subst hv
    simp [targetsMember, Itoa_natCast, parsePointer_env_append, parseIndex_repr]
  · simp only [createEnvVariablesPatches, if_true, List.mem_singleton] at hop
    subst hop
    simp [targetsMember, Itoa_natCast, parsePointer_env, parseIndex_repr]

theorem targetsContainer_createVolumeMountsPatch (i j : Nat) (b : Bool) :
    targetsContainer i (createVolumeMountsPatch b (j : Int)) = (j == i) := by
  unfold targetsContainer
  rw [targetsMember_createVolumeMountsPatch, targetsMember_createVolumeMountsPatch]
  simp

theorem targetsContainer_of_mem_createEnvVariablesPatches (envVariables : List EnvVar)
    (i j : Nat) (b : Bool) (op : patchOperation)
    (hop : op ∈ createEnvVariablesPatches envVariables b (j : Int)) :
    targetsContainer i op = (j == i) := by
  unfold targetsContainer
  rw [targetsMember_of_mem_createEnvVariablesPatches envVariables _ i j b op hop,
    targetsMember_of_mem_createEnvVariablesPatches envVariables _ i j b op hop]
  simp

/-- The operations of createPatch that target the container at index i are the ones
computed from that container. -/
theorem filter_createPatch_container (config : agentConfig) (spec : PodSpec) (i : Nat)
    (c : Container) (h : (spec.Containers.getD [])[i]? = some c) :
    (createPatch config spec).filter (targetsContainer i) =
      createVolumeMountsPatch c.VolumeMounts.isNone (i : Int) ::
        createEnvVariablesPatches (generateEnvironmentVariables config) c.Env.isNone
          (i : Int) := by
  have hvol : ∀ b, targetsContainer i (createVolumePatch b) = false := by
    intro b
    cases b <;> rfl
  have hinit : ∀ b, targetsContainer i (createInitContainerPatch b) = false := by
    intro b
    cases b <;> rfl
  rw [createPatch_eq, List.filter_cons, hvol, List.filter_cons, hinit, filter_flatMap]
  simp only [Bool.false_eq_true, if_false]
  refine flatMap_enumFrom_single
    (fun jx => createVolumeMountsPatch jx.2.VolumeMounts.isNone (jx.1 : Int) ::
      createEnvVariablesPatches (generateEnvironmentVariables config) jx.2.Env.isNone
        (jx.1 : Int)) _ i ?_ _ 0 c (Nat.zero_le _) h
  intro j x
  simp only [List.filter_cons, targetsContainer_createVolumeMountsPatch]
  by_cases hj : j = i
  · have hall : (createEnvVariablesPatches (generateEnvironmentVariables config)
        x.Env.isNone (j : Int)).filter (targetsContainer i) =
        createEnvVariablesPatches (generateEnvironmentVariables config) x.Env.isNone
          (j : Int) := by
      rw [List.filter_eq_self]
      intro op hop
      rw [targetsContainer_of_mem_createEnvVariablesPatches _ i j _ op hop]
      simp [hj]
    simp [hj, hall] at hall ⊢
    exact hall
  · have hnone : (createEnvVariablesPatches (generateEnvironmentVariables config)
        x.Env.isNone (j : Int)).filter (targetsContainer i) = [] := by
      rw [List.filter_eq_nil_iff]
      intro op hop
      rw [targetsContainer_of_mem_createEnvVariablesPatches _ i j _ op hop]
      simpa using hj
    simp [hj, hnone]

/-! ## The objects carried by the operations -/

theorem mounts_createVolumePatch (b : Bool) : (createVolumePatch b).Value.mounts = [] := by
  cases b <;> rfl

theorem mounts_createInitContainerPatch (b : Bool) :
    (createInitContainerPatch b).Value.mounts = [volumeMounts] := by
  cases b <;> rfl

theorem mounts_createVolumeMountsPatch (b : Bool) (index : Int) :
    (createVolumeMountsPatch b index).Value.mounts = [volumeMounts] := by
  cases b <;> rfl

theorem mounts_of_mem_createEnvVariablesPatches (envVariables : List EnvVar) (b : Bool)
    (index : Int) (op : patchOperation)
    (h : op ∈ createEnvVariablesPatches envVariables b index) : op.Value.mounts = [] := by
  cases b
  · rw [createEnvVariablesPatches_append, List.mem_map] at h
    obtain ⟨v, _, hv⟩ := h
    rw [← hv]
    rfl
  · simp only [createEnvVariablesPatches, if_true, List.mem_singleton] at h
    rw [h]
    rfl

theorem containers_createVolumePatch (b : Bool) :
    (createVolumePatch b).Value.containers = [] := by
  cases b <;> rfl

theorem containers_createInitContainerPatch (b : Bool) :
    (createInitContainerPatch b).Value.containers = [agentInitContainer] := by
  cases b <;> rfl

theorem containers_createVolumeMountsPatch (b : Bool) (index : Int) :
    (createVolumeMountsPatch b index).Value.containers = [] := by
  cases b <;> rfl

theorem containers_of_mem_createEnvVariablesPatches (envVariables : List EnvVar) (b : Bool)
    (index : Int) (op : patchOperation)
    (h : op ∈ createEnvVariablesPatches envVariables b index) : op.Value.containers = [] := by
  cases b
  · rw [createEnvVariablesPatches_append, List.mem_map] at h
    obtain ⟨v, _, hv⟩ := h
    rw [← hv]
    rfl
  · simp only [createEnvVariablesPatches, if_true, List.mem_singleton] at h
    rw [h]
    rfl

/-- The paths of the environment operations for one container. -/
theorem paths_createEnvVariablesPatches (envVariables : List EnvVar) (b : Bool) (index : Int) :
    (createEnvVariablesPatches envVariables b index).map patchOperation.Path =
      if b then ["/spec/containers/" ++ strconv.Itoa index ++ "/env"]
      else List.replicate envVariables.length
        ("/spec/containers/" ++ strconv.Itoa index ++ "/env" ++ "/-") := by
  cases b
  · rw [createEnvVariablesPatches_append]
    simp only [Bool.false_eq_true, if_false, List.map_map, Function.comp_def]
    induction envVariables with
    | nil => rfl
    | cons v vs ih => simp [List.replicate_succ, ih]
  · simp [createEnvVariablesPatches]

/-- The variables carried by the environment operations for one container. -/
theorem envVars_createEnvVariablesPatches (envVariables : List EnvVar) (b : Bool)
    (index : Int) :
    (createEnvVariablesPatches envVariables b index).flatMap (fun op => op.Value.envVars) =
      envVariables := by
  cases b
  · rw [createEnvVariablesPatches_append]
    induction envVariables with
    | nil => rfl
    | cons v vs ih =>
      rw [List.map_cons, List.flatMap_cons, ih]
      rfl
  · simp [createEnvVariablesPatches, PatchValue.envVars]

/-- C17, as stated, fails: the configuration is a Go map, and two evaluations may visit it
in different orders. For the map holding A = 1 and B = 2 and one and the same pod, the
evaluation that visits A first and the one that visits B first emit different environment
operations for container 0, although the pod, and so the presence of every field, is the
same. -/
theorem createPatch_presence_only_counterexample :
    sameMap [("A", "1"), ("B", "2")] [("B", "2"), ("A", "1")] ∧
      (barePod.Containers.getD [])[0]? = some bareContainer ∧
      (createPatch { environment := [("A", "1"), ("B", "2")] } barePod).filter
          (targetsContainer 0) ≠
        (createPatch { environment := [("B", "2"), ("A", "1")] } barePod).filter
          (targetsContainer 0) ∧
      (createPatch { environment := [("A", "1"), ("B", "2")] } populatedPod).filter
          (targetsMember "env" 0) ≠
        (createPatch { environment := [("B", "2"), ("A", "1")] } populatedPod).filter
          (targetsMember "env" 0) := by
  refine ⟨List.Perm.swap _ _ _, by decide, by decide, by decide⟩

/-- C17, amended: take two evaluations of createPatch over the same configuration map and
two pods with a container at index i. If the pods agree on whether the volumeMounts of
that container is absent, the volume-mount operation is the same, whatever the visiting
order of the map. If they agree on whether its env is absent, the environment operations
have the same paths, in the same number, and carry the same variables up to their order;
they are the same operations when both evaluations visit the map in the same order, and
then, with both agreements, all operations for the container are the same, whatever else
the pods hold. The volume patch is the same for two pods that agree on whether volumes is
absent, and the init-container patch for two that agree on whether initContainers is
absent. -/
theorem createPatch_presence_only (config config2 : agentConfig) (spec1 spec2 : PodSpec)
    (i : Nat) (c1 c2 : Container)
    (hmap : sameMap config.environment config2.environment)
    (h1 : (spec1.Containers.getD [])[i]? = some c1)
    (h2 : (spec2.Containers.getD [])[i]? = some c2) :
    (c1.VolumeMounts.isNone = c2.VolumeMounts.isNone →
        (createPatch config spec1).filter (targetsMember "volumeMounts" i) =
          (createPatch config2 spec2).filter (targetsMember "volumeMounts" i)) ∧
      (c1.Env.isNone = c2.Env.isNone →
        ((createPatch config spec1).filter (targetsMember "env" i)).map patchOperation.Path =
            ((createPatch config2 spec2).filter (targetsMember "env" i)).map
              patchOperation.Path ∧
          ((createPatch config spec1).filter (targetsMember "env" i)).flatMap
              (fun op => op.Value.envVars) = generateEnvironmentVariables config ∧
          ((createPatch config2 spec2).filter (targetsMember "env" i)).flatMap
              (fun op => op.Value.envVars) = generateEnvironmentVariables config2 ∧
          (generateEnvironmentVariables config).Perm (generateEnvironmentVariables config2)) ∧
      (c1.Env.isNone = c2.Env.isNone → config.environment = config2.environment →
        (createPatch config spec1).filter (targetsMember "env" i) =
          (createPatch config2 spec2).filter (targetsMember "env" i)) ∧
      (c1.VolumeMounts.isNone = c2.VolumeMounts.isNone → c1.Env.isNone = c2.Env.isNone →
        config.environment = config2.environment →
        (createPatch config spec1).filter (targetsContainer i) =
          (createPatch config2 spec2).filter (targetsContainer i)) ∧
      (∀ s1 s2 : PodSpec, s1.Volumes.isNone = s2.Volumes.isNone →
        (createPatch config s1)[0]? = (createPatch config2 s2)[0]?) ∧
      (∀ s1 s2 : PodSpec, s1.InitContainers.isNone = s2.InitContainers.isNone →
        (createPatch config s1)[1]? = (createPatch config2 s2)[1]?) := by
  have hperm : (generateEnvironmentVariables config).Perm
      (generateEnvironmentVariables config2) := by
    rw [generateEnvironmentVariables_eq, generateEnvironmentVariables_eq]
    exact (List.Perm.map _ hmap).cons _
  have hsame : config.environment = config2.environment → config = config2 := by
    intro heq
    cases config; cases config2; simp_all
  have henvops : ∀ (cfg : agentConfig) (spec : PodSpec) (c : Container),
      (spec.Containers.getD [])[i]? = some c →
      (createPatch cfg spec).filter (targetsMember "env" i) =
        createEnvVariablesPatches (generateEnvironmentVariables cfg) c.Env.isNone (i : Int) := by
    intro cfg spec c hc
    rw [filter_createPatch cfg spec "env" i c hc]
    simp
  refine ⟨?_, ?_, ?_, ?_, ?_, ?_⟩
  · intro hvm
    rw [filter_createPatch config spec1 _ i c1 h1, filter_createPatch config2 spec2 _ i c2 h2]
    simp [hvm]
  · intro henv
    rw [henvops config spec1 c1 h1, henvops config2 spec2 c2 h2]
    refine ⟨?_, envVars_createEnvVariablesPatches _ _ _, envVars_createEnvVariablesPatches _ _ _,
      hperm⟩
    rw [paths_createEnvVariablesPatches, paths_createEnvVariablesPatches, henv, hperm.length_eq]
  · intro henv heq
    rw [henvops config spec1 c1 h1, henvops config2 spec2 c2 h2, henv, hsame heq]
  · intro hvm henv heq
    rw [filter_createPatch_container config spec1 i c1 h1,
      filter_createPatch_container config2 spec2 i c2 h2, hvm, henv, hsame heq]
  · intro s1 s2 hs
    rw [createPatch_eq, createPatch_eq, hs]
    rfl
  · intro s1 s2 hs
    rw [createPatch_eq, createPatch_eq, hs]
    simp

/-- Container 0 of the bare pod and container 0 of the mixed pod both lack volumeMounts
and env; the two pods differ in their volumes and in their number of containers, and the
map holding A = 1 and B = 2 is visited in its two orders. -/
theorem createPatch_presence_only_witness :
    sameMap [("A", "1"), ("B", "2")] [("B", "2"), ("A", "1")] ∧
      (barePod.Containers.getD [])[0]? = some bareContainer ∧
      (mixedPod.Containers.getD [])[0]? = some bareContainer ∧
      barePod ≠ mixedPod ∧
      (createPatch { environment := [("A", "1"), ("B", "2")] } barePod).filter
          (targetsMember "volumeMounts" 0) =
        (createPatch { environment := [("B", "2"), ("A", "1")] } mixedPod).filter
          (targetsMember "volumeMounts" 0) ∧
      ((createPatch { environment := [("A", "1"), ("B", "2")] } barePod).filter
          (targetsMember "env" 0)).map patchOperation.Path =
        ((createPatch { environment := [("B", "2"), ("A", "1")] } mixedPod).filter
          (targetsMember "env" 0)).map patchOperation.Path :=
  ⟨List.Perm.swap _ _ _, by decide, by decide, by decide,
    (createPatch_presence_only { environment := [("A", "1"), ("B", "2")] }
      { environment := [("B", "2"), ("A", "1")] } barePod mixedPod 0 bareContainer
      bareContainer (List.Perm.swap _ _ _) (by decide) (by decide)).1 rfl,
    ((createPatch_presence_only { environment := [("A", "1"), ("B", "2")] }
      { environment := [("B", "2"), ("A", "1")] } barePod mixedPod 0 bareContainer
      bareContainer (List.Perm.swap _ _ _) (by decide) (by decide)).2.1 rfl).1⟩

/-- C18: in every output of createPatch each volume mount carried by an operation, in a
volume-mount patch or inside the init container, has the name elastic-apm-agent and the
mount path /elastic/apm/agent; the volume carried by the volume patch has that same name;
the last argument of the command of the init container is that mount path. After the
patch is applied the pod has a volume of that name, so the name of every mount carried by
an operation is the name of a volume of the pod, every container has the agent mount, and
the agent init container is among the init containers. -/
theorem createPatch_referential_consistency (config : agentConfig) (spec : PodSpec) :
    (∀ op ∈ createPatch config spec, ∀ m ∈ op.Value.mounts,
        m.Name = "elastic-apm-agent" ∧ m.MountPath = "/elastic/apm/agent") ∧
      ((createPatch config spec)[0]?.map (fun op => op.Value.volumes.map Volume.Name)) =
        some ["elastic-apm-agent"] ∧
      (∀ op ∈ createPatch config spec, ∀ c ∈ op.Value.containers,
        c.Command.bind List.getLast? = some "/elastic/apm/agent" ∧
          c.VolumeMounts = some [volumeMounts]) ∧
      volumeMounts.Name = agentVolume.Name ∧
      agentInitContainer.Command.bind List.getLast? = some volumeMounts.MountPath ∧
      ∃ p, applyPatch (createPatch config spec) spec = some p ∧
        (∀ op ∈ createPatch config spec, ∀ m ∈ op.Value.mounts,
          m.Name ∈ (p.Volumes.getD []).map Volume.Name) ∧
        (∀ c ∈ p.Containers.getD [], volumeMounts ∈ c.VolumeMounts.getD []) ∧
        agentInitContainer ∈ p.InitContainers.getD [] := by
  have hmounts : ∀ op ∈ createPatch config spec, ∀ m ∈ op.Value.mounts,
      m.Name = "elastic-apm-agent" ∧ m.MountPath = "/elastic/apm/agent" := by
    intro op hop m hm
    have hm2 : m ∈ [volumeMounts] := by
      rcases mem_createPatch config spec op hop with h | h | ⟨k, c, _, h | h⟩
      · rw [h, mounts_createVolumePatch] at hm
        exact absurd hm (List.not_mem_nil _)
      · rw [h, mounts_createInitContainerPatch] at hm
        exact hm
      · rw [h, mounts_createVolumeMountsPatch] at hm
        exact hm
      · rw [mounts_of_mem_createEnvVariablesPatches _ _ _ op h] at hm
        exact absurd hm (List.not_mem_nil _)
    rw [List.mem_singleton] at hm2
    subst hm2
    exact ⟨rfl, rfl⟩
  refine ⟨hmounts, ?_, ?_, rfl, rfl, _, applyPatch_createPatch config spec, ?_, ?_, ?_⟩
  · rw [createPatch_eq]
    cases spec.Volumes <;> rfl
  · intro op hop c hc
    have hc2 : c ∈ [agentInitContainer] := by
      rcases mem_createPatch config spec op hop with h | h | ⟨k, c0, _, h | h⟩
      · rw [h, containers_createVolumePatch] at hc
        exact absurd hc (List.not_mem_nil _)
      · rw [h, containers_createInitContainerPatch] at hc
        exact hc
      · rw [h, containers_createVolumeMountsPatch] at hc
        exact absurd hc (List.not_mem_nil _)
      · rw [containers_of_mem_createEnvVariablesPatches _ _ _ op h] at hc
        exact absurd hc (List.not_mem_nil _)
    rw [List.mem_singleton] at hc2
    subst hc2
    exact ⟨rfl, rfl⟩
  · intro op hop m hm
    rw [(hmounts op hop m hm).1]
    simp [agentVolume, volumeName]
  · intro c hc
    cases hcs : spec.Containers with
    | none => simp [hcs] at hc
    | some cs =>
      simp only [hcs, Option.map_some', Option.getD_some, List.mem_map] at hc
      obtain ⟨c0, _, hc0⟩ := hc
      rw [← hc0]
      simp
  · simp

/-- C19: for indices i ≠ j, written Nat.repr i and Nat.repr j in canonical decimal, and
all values of the create flags: the path of createVolumeMountsPatch for i differs from
the one for j, and every path of createEnvVariablesPatches for i differs from every one
for j. A path produced for index i is /spec/containers/ followed by the decimal
rendering of i followed by /volumeMounts or /env, optionally extended by the token "-".
No operation computed from container i targets container j, and the operations of
createPatch that target the container at index j are exactly the ones computed from it. -/
theorem container_paths_unique (i j : Nat) (h : i ≠ j) :
    (∀ b b2 : Bool,
        (createVolumeMountsPatch b (i : Int)).Path ≠
          (createVolumeMountsPatch b2 (j : Int)).Path) ∧
      (∀ (envs envs2 : List EnvVar) (b b2 : Bool) (op op2 : patchOperation),
        op ∈ createEnvVariablesPatches envs b (i : Int) →
        op2 ∈ createEnvVariablesPatches envs2 b2 (j : Int) → op.Path ≠ op2.Path) ∧
      (createVolumeMountsPatch true (i : Int)).Path =
        "/spec/containers/" ++ Nat.repr i ++ "/volumeMounts" ∧
      (createVolumeMountsPatch false (i : Int)).Path =
        "/spec/containers/" ++ Nat.repr i ++ "/volumeMounts" ++ "/-" ∧
      (∀ (envs : List EnvVar), ∀ op ∈ createEnvVariablesPatches envs true (i : Int),
        op.Path = "/spec/containers/" ++ Nat.repr i ++ "/env") ∧
      (∀ (envs : List EnvVar), ∀ op ∈ createEnvVariablesPatches envs false (i : Int),
        op.Path = "/spec/containers/" ++ Nat.repr i ++ "/env" ++ "/-") ∧
      parseIndex (Nat.repr i).data = some i ∧ Nat.repr i ≠ Nat.repr j ∧
      (∀ b : Bool, targetsContainer j (createVolumeMountsPatch b (i : Int)) = false) ∧
      (∀ (envs : List EnvVar) (b : Bool), ∀ op ∈ createEnvVariablesPatches envs b (i : Int),
        targetsContainer j op = false) ∧
      (∀ (config : agentConfig) (spec : PodSpec) (c : Container),
        (spec.Containers.getD [])[j]? = some c →
        (createPatch config spec).filter (targetsContainer j) =
          createVolumeMountsPatch c.VolumeMounts.isNone (j : Int) ::
            createEnvVariablesPatches (generateEnvironmentVariables config) c.Env.isNone
              (j : Int)) := by
  have hij : (i == j) = false := by simpa using h
  have hii : (i == i) = true := by simp
  refine ⟨?_, ?_, rfl, rfl, ?_, ?_, parseIndex_repr i, ?_, ?_, ?_, ?_⟩
  · intro b b2 hpath
    have hc := targetsMember_congr "volumeMounts" j _ _ hpath
    rw [targetsMember_createVolumeMountsPatch, targetsMember_createVolumeMountsPatch] at hc
    simp [hij] at hc
  · intro envs envs2 b b2 op op2 hop hop2 hpath
    have hc := targetsMember_congr "env" j _ _ hpath
    rw [targetsMember_of_mem_createEnvVariablesPatches envs _ j i b op hop,
      targetsMember_of_mem_createEnvVariablesPatches envs2 _ j j b2 op2 hop2] at hc
    simp [hij] at hc
  · intro envs op hop
    simp only [createEnvVariablesPatches, if_true, List.mem_singleton] at hop
    rw [hop]
    rfl
  · intro envs op hop
    rw [createEnvVariablesPatches_append, List.mem_map] at hop
    obtain ⟨v, _, hv⟩ := hop
    rw [← hv]
    rfl
  · intro hrepr
    exact h (repr_injective i j hrepr)
  · intro b
    rw [targetsContainer_createVolumeMountsPatch]
    exact hij
  · intro envs b op hop
    rw [targetsContainer_of_mem_createEnvVariablesPatches envs j i b op hop]
    exact hij
  · intro config spec c hc
    exact filter_createPatch_container config spec j c hc

/-- The indices 0 and 1, and the second container of the mixed pod. -/
theorem container_paths_unique_witness :
    (0 : Nat) ≠ 1 ∧
      (createVolumeMountsPatch true ((0 : Nat) : Int)).Path ≠
        (createVolumeMountsPatch true ((1 : Nat) : Int)).Path ∧
      (createVolumeMountsPatch true ((0 : Nat) : Int)).Path = "/spec/containers/0/volumeMounts" ∧
      (createPatch scenarioConfig mixedPod).filter (targetsContainer 1) =
        [createVolumeMountsPatch false ((1 : Nat) : Int),
          { Op := "add", Path := "/spec/containers/1/env/-",
            Value := PatchValue.envVar secretTokenVar },
          { Op := "add", Path := "/spec/containers/1/env/-",
            Value := PatchValue.envVar
              { Name := "LOG_LEVEL", Value := "debug", ValueFrom := none } }] :=
  ⟨by decide, (container_paths_unique 0 1 (by decide)).1 true true, by decide, by decide⟩

end ApmWebhook
